import Mathlib

/-!
Shallow embedding of the LabSound runtime core and a verification of the
specification's claims against it.  The embedded code is:
  * `src/WTF/wtf/MainThread.cpp` — the cross-thread dispatch queue;
  * `src/Modules/webaudio/AudioNode.cpp` — node lifecycle, reference
    counting, per-quantum render scheduling, port accessors;
  * `src/core/ChannelMergerNode.cpp` — channel-count negotiation and the
    channel-merge processing step.
Pointers are modelled by numeric identities, C `double` time values by `ℚ`,
and `ASSERT` failures by `Except.error`.
-/

namespace DispatchQueue

/-- Embeds `FunctionWithContext` (MainThread.cpp lines 40-57): one queued call.
The `MainThreadFunction*` and `void*` pointers are modelled as numeric
identities; a null `ThreadCondition*` is `none`. -/
structure FunctionWithContext where
  function : Nat
  context : Nat
  syncFlag : Option Nat
  deriving DecidableEq

/-- Embeds `FunctionWithContext::operator==` (MainThread.cpp lines 51-56): compares
`function`, `context` **and** `syncFlag`. -/
def fwcEq (a b : FunctionWithContext) : Bool :=
  a.function == b.function && a.context == b.context && a.syncFlag == b.syncFlag

/-- Embeds `cancelCallOnMainThread` (MainThread.cpp lines 200-220): erases from the
queue every entry matching `FunctionWithContext(function, context)` — whose
`syncFlag` is the null pointer — via `erase(remove_if(...), end)`, i.e. keeps,
in order, exactly the entries the predicate rejects. -/
def cancelCallOnMainThread (function : Nat) (context : Nat)
    (queue : List FunctionWithContext) : List FunctionWithContext :=
  queue.filter (fun o => !(fwcEq o ⟨function, context, none⟩))

/-- The mutable state touched by `dispatchFunctionsFromMainThread`:
the queue, the pause flag, plus observation logs — the calls executed
(in order), the sync flags signalled (in order), whether
`scheduleDispatchFunctionsOnMainThread` was requested, and the wall clock
(`currentTime()`), which advances while an entry executes. -/
structure MainThreadState where
  functionQueue : List FunctionWithContext
  callbacksPaused : Bool
  scheduleRequested : Bool
  executed : List FunctionWithContext
  signaled : List Nat
  now : ℚ
  deriving DecidableEq

/-- Embeds `maxRunLoopSuspensionTime` (MainThread.cpp line 131): 0.05 seconds. -/
def maxRunLoopSuspensionTime : ℚ := 5 / 100

/-- The `while (true)` loop of `dispatchFunctionsFromMainThread`
(MainThread.cpp lines 143-166).  `dur e` is the wall-clock time consumed by
executing entry `e`.  Each iteration pops the head, executes it (advancing
the clock and the execution log), signals its sync flag when present, and
exits early — requesting a new dispatch — once the elapsed time since
`startTime` exceeds the budget. -/
def dispatchLoop (dur : FunctionWithContext → ℚ) (startTime : ℚ) :
    List FunctionWithContext → MainThreadState → MainThreadState
  | [], st => st
  | invocation :: rest, st =>
    let st1 : MainThreadState :=
      { st with
        functionQueue := rest
        executed := st.executed ++ [invocation]
        now := st.now + dur invocation
        signaled := st.signaled ++ invocation.syncFlag.toList }
    if maxRunLoopSuspensionTime < st1.now - startTime then
      { st1 with scheduleRequested := true }
    else
      dispatchLoop dur startTime rest st1

/-- Embeds `dispatchFunctionsFromMainThread` (MainThread.cpp lines 133-167): returns
immediately when `callbacksPaused`, otherwise records `startTime` and runs
the drain loop over the current queue. -/
def dispatchFunctionsFromMainThread (dur : FunctionWithContext → ℚ)
    (st : MainThreadState) : MainThreadState :=
  if st.callbacksPaused then st
  else dispatchLoop dur st.now st.functionQueue st

/-- Behaviour of the drain loop on a non-empty queue: it executes exactly
the prefix of the queue up to and including the first entry whose
cumulative execution time exceeds the budget (the whole queue when none
does), in FIFO order, advancing the clock by the executed durations,
signalling exactly the executed sync flags, never stopping before the
budget is exceeded, and requesting a new dispatch when it stops early. -/
theorem dispatchLoop_spec (dur : FunctionWithContext → ℚ) (startTime : ℚ) :
    ∀ (q : List FunctionWithContext) (st : MainThreadState), q ≠ [] →
      ∃ k, 1 ≤ k ∧ k ≤ q.length ∧
        (dispatchLoop dur startTime q st).executed = st.executed ++ q.take k ∧
        (dispatchLoop dur startTime q st).functionQueue = q.drop k ∧
        (dispatchLoop dur startTime q st).signaled
          = st.signaled ++ (q.take k).filterMap (fun e => e.syncFlag) ∧
        (dispatchLoop dur startTime q st).callbacksPaused = st.callbacksPaused ∧
        (dispatchLoop dur startTime q st).now
          = st.now + ((q.take k).map dur).sum ∧
        (∀ i, 1 ≤ i → i < k →
          ¬maxRunLoopSuspensionTime
            < st.now + ((q.take i).map dur).sum - startTime) ∧
        (k < q.length →
          (dispatchLoop dur startTime q st).scheduleRequested = true ∧
          maxRunLoopSuspensionTime
            < (dispatchLoop dur startTime q st).now - startTime) := by
  intro q
  induction q with
  | nil => intro st h; exact absurd rfl h
  | cons invocation rest ih =>
    intro st _
    by_cases hb : maxRunLoopSuspensionTime < (st.now + dur invocation) - startTime
    · refine ⟨1, le_refl 1, by simp, ?_, ?_, ?_, ?_, ?_, ?_, ?_⟩
      · simp [dispatchLoop, hb]
      · simp [dispatchLoop, hb]
      · simp [dispatchLoop, hb, List.filterMap_cons]
        cases h : invocation.syncFlag <;> simp [h]
      · simp [dispatchLoop, hb]
      · simp [dispatchLoop, hb]
      · intro i h1 h2
        omega
      · intro _
        refine ⟨by simp [dispatchLoop, hb], ?_⟩
        simp [dispatchLoop, hb]
    · have hloop : dispatchLoop dur startTime (invocation :: rest) st
          = dispatchLoop dur startTime rest
              { st with
                functionQueue := rest
                executed := st.executed ++ [invocation]
                now := st.now + dur invocation
                signaled := st.signaled ++ invocation.syncFlag.toList } := by
        simp [dispatchLoop, hb]
      rcases eq_or_ne rest [] with hrest | hrest
      · subst hrest
        have hres : dispatchLoop dur startTime [invocation] st
            = { st with
                functionQueue := []
                executed := st.executed ++ [invocation]
                now := st.now + dur invocation
                signaled := st.signaled ++ invocation.syncFlag.toList } := by
          rw [hloop]; rfl
        refine ⟨1, le_refl 1, by simp, ?_, ?_, ?_, ?_, ?_, ?_, ?_⟩
        · simp [hres]
        · simp [hres]
        · simp [hres, List.filterMap_cons]
          cases h : invocation.syncFlag <;> simp [h]
        · simp [hres]
        · simp [hres]
        · intro i h1 h2
          omega
        · intro h
          exact absurd h (by simp)
      · obtain ⟨k, hk1, hklen, hexec, hqueue, hsig, hpaused, hnow, hmin, hearly⟩ :=
          ih _ hrest
        refine ⟨k + 1, by omega, by simp; omega, ?_, ?_, ?_, ?_, ?_, ?_, ?_⟩
        · rw [hloop, hexec]
          simp [List.take_succ_cons]
        · rw [hloop, hqueue]
          simp
        · rw [hloop, hsig]
          simp [List.take_succ_cons, List.filterMap_cons]
          cases h : invocation.syncFlag <;> simp [h]
        · rw [hloop, hpaused]
        · rw [hloop, hnow]
          simp [List.take_succ_cons]
          ring
        · intro i hi1 hik
          cases i with
          | zero => omega
          | succ i' =>
            rcases Nat.eq_zero_or_pos i' with h0 | hpos
            · subst h0
              simpa using hb
            · have hmi := hmin i' hpos (by omega)
              simpa [List.take_succ_cons, add_assoc] using hmi
        · intro hlt
          have hklt : k < rest.length := by simp at hlt; omega
          rw [hloop]
          exact hearly hklt

/-- C7: `dispatchFunctionsFromMainThread` returns immediately leaving the
state unchanged when paused; otherwise, on a non-empty queue, it executes at
least one entry, pops a prefix of the queue strictly in FIFO order, signals
each executed entry's sync flag, advances the clock by exactly the executed
durations, never stops while the elapsed time is still within
`maxRunLoopSuspensionTime`, RETURNS EARLY — leaving the queue non-exhausted
— whenever the cumulative execution time exceeds the budget before the last
entry, and on every early stop the budget was exceeded and a new dispatch
was requested. -/
theorem dispatchFunctionsFromMainThread_spec (dur : FunctionWithContext → ℚ)
    (st : MainThreadState) :
    (st.callbacksPaused = true → dispatchFunctionsFromMainThread dur st = st) ∧
    (st.callbacksPaused = false → st.functionQueue ≠ [] →
      ∃ k, 1 ≤ k ∧ k ≤ st.functionQueue.length ∧
        (dispatchFunctionsFromMainThread dur st).executed
          = st.executed ++ st.functionQueue.take k ∧
        (dispatchFunctionsFromMainThread dur st).functionQueue
          = st.functionQueue.drop k ∧
        (dispatchFunctionsFromMainThread dur st).signaled
          = st.signaled ++ (st.functionQueue.take k).filterMap (fun e => e.syncFlag) ∧
        (dispatchFunctionsFromMainThread dur st).now
          = st.now + ((st.functionQueue.take k).map dur).sum ∧
        (∀ i, 1 ≤ i → i < k →
          ¬maxRunLoopSuspensionTime
            < ((st.functionQueue.take i).map dur).sum) ∧
        ((∃ i, 1 ≤ i ∧ i < st.functionQueue.length ∧
            maxRunLoopSuspensionTime
              < ((st.functionQueue.take i).map dur).sum) →
          k < st.functionQueue.length) ∧
        (k < st.functionQueue.length →
          (dispatchFunctionsFromMainThread dur st).scheduleRequested = true ∧
          maxRunLoopSuspensionTime
            < (dispatchFunctionsFromMainThread dur st).now - st.now)) := by
  constructor
  · intro hp
    simp [dispatchFunctionsFromMainThread, hp]
  · intro hp hne
    have hd : dispatchFunctionsFromMainThread dur st
        = dispatchLoop dur st.now st.functionQueue st := by
      simp [dispatchFunctionsFromMainThread, hp]
    obtain ⟨k, hk1, hklen, hexec, hqueue, hsig, _, hnow, hmin, hearly⟩ :=
      dispatchLoop_spec dur st.now st.functionQueue st hne
    have hmin' : ∀ i, 1 ≤ i → i < k →
        ¬maxRunLoopSuspensionTime
          < ((st.functionQueue.take i).map dur).sum := by
      intro i h1 h2
      have := hmin i h1 h2
      simpa using this
    refine ⟨k, hk1, hklen, by rw [hd, hexec], by rw [hd, hqueue],
      by rw [hd, hsig], by rw [hd, hnow], hmin', ?_,
      fun h => by rw [hd]; exact hearly h⟩
    rintro ⟨i, hi1, hilen, hex⟩
    by_contra hk
    exact hmin' i hi1 (by omega) hex

/-- A concrete drain input: two queued entries, one of them waiting on sync
flag `9`, each taking 1 second (far beyond the 0.05 s budget). -/
def durW : FunctionWithContext → ℚ := fun _ => 1

/-- A concrete unpaused dispatch state holding the two entries of `durW`'s
scenario. -/
def stW : MainThreadState :=
  { functionQueue := [⟨1, 2, none⟩, ⟨3, 4, some 9⟩]
    callbacksPaused := false
    scheduleRequested := false
    executed := []
    signaled := []
    now := 0 }

/-- Witness for C7: the drain spec applied to the concrete state `stW`,
together with the concrete early stop it forces — the 1-second first entry
exceeds the 0.05 s budget, so the drain executes exactly one of the two
entries, leaves the second queued, and requests a new dispatch. -/
theorem dispatchFunctionsFromMainThread_spec_witness :
    (∃ k, 1 ≤ k ∧ k ≤ stW.functionQueue.length ∧
      (dispatchFunctionsFromMainThread durW stW).executed
        = stW.executed ++ stW.functionQueue.take k ∧
      (dispatchFunctionsFromMainThread durW stW).functionQueue
        = stW.functionQueue.drop k ∧
      (dispatchFunctionsFromMainThread durW stW).signaled
        = stW.signaled ++ (stW.functionQueue.take k).filterMap (fun e => e.syncFlag) ∧
      (dispatchFunctionsFromMainThread durW stW).now
        = stW.now + ((stW.functionQueue.take k).map durW).sum ∧
      (∀ i, 1 ≤ i → i < k →
        ¬maxRunLoopSuspensionTime
          < ((stW.functionQueue.take i).map durW).sum) ∧
      ((∃ i, 1 ≤ i ∧ i < stW.functionQueue.length ∧
          maxRunLoopSuspensionTime
            < ((stW.functionQueue.take i).map durW).sum) →
        k < stW.functionQueue.length) ∧
      (k < stW.functionQueue.length →
        (dispatchFunctionsFromMainThread durW stW).scheduleRequested = true ∧
        maxRunLoopSuspensionTime
          < (dispatchFunctionsFromMainThread durW stW).now - stW.now)) ∧
    dispatchFunctionsFromMainThread durW stW
      = { functionQueue := [⟨3, 4, some 9⟩]
          callbacksPaused := false
          scheduleRequested := true
          executed := [⟨1, 2, none⟩]
          signaled := []
          now := 1 } :=
  ⟨(dispatchFunctionsFromMainThread_spec durW stW).2 rfl (by decide), by
    have hb : maxRunLoopSuspensionTime < (0 : ℚ) + 1 - 0 := by
      rw [maxRunLoopSuspensionTime]
      norm_num
    simp [dispatchFunctionsFromMainThread, dispatchLoop, stW, durW, hb]
    intro hcon
    rw [maxRunLoopSuspensionTime] at hcon
    norm_num at hcon⟩


/-- C4 counterexample: an entry that carries a synchronization handle is NOT
removed by `cancelCallOnMainThread` even though its (function, context) pair
matches, because `FunctionWithContext::operator==` also compares the
`syncFlag` pointer and the cancellation probe carries a null one. -/
theorem cancelCallOnMainThread_keeps_waiting_entry :
    cancelCallOnMainThread 1 2 [⟨1, 2, some 7⟩] = [⟨1, 2, some 7⟩] := by decide

/-- C4 (amended): `cancelCallOnMainThread fn ctx` keeps a subsequence of the
queue (so relative order of the remainder is preserved) containing exactly
the entries that do not match the probe on all three fields — i.e. it removes
exactly the non-waiting entries (`syncFlag` null) whose function and context
match; a waiting entry is never removed. -/
theorem cancelCallOnMainThread_spec (function : Nat) (context : Nat)
    (queue : List FunctionWithContext) :
    List.Sublist (cancelCallOnMainThread function context queue) queue ∧
    ∀ e, e ∈ cancelCallOnMainThread function context queue ↔
      e ∈ queue ∧
        ¬(e.function = function ∧ e.context = context ∧ e.syncFlag = none) := by
  constructor
  · exact List.filter_sublist queue
  · intro e
    simp [cancelCallOnMainThread, List.mem_filter, fwcEq, not_and]
    tauto

end DispatchQueue

namespace Lifecycle

/-- Embeds `RefType` (used throughout AudioNode.cpp): the two reference
classes of a node. -/
inductive RefType where
  | RefTypeNormal
  | RefTypeConnection
  deriving DecidableEq

/-- Node categories as the lifecycle code distinguishes them: `nodeType()` is
compared only against `NodeTypeConvolver` and `NodeTypeDelay`
(AudioNode.cpp line 322); every other member of the `NodeType` enum behaves
identically there and is collapsed into `NodeTypeOther`. -/
inductive NodeType where
  | NodeTypeConvolver
  | NodeTypeDelay
  | NodeTypeOther
  deriving DecidableEq

/-- An `AudioNodeOutput` as observed by the lifecycle code: its fan-out
(number of connected inputs) and its enabled/dormant flag.  The class itself
is not under `src/`; these observables follow the spec's Port (Output)
attributes ("fan-out set of connected Inputs, an enabled/dormant flag"). -/
structure LifecycleOutput where
  connections : Nat
  enabled : Bool
  deriving DecidableEq

/-- Modelled from the spec: `AudioNodeOutput::disconnectAll` (source not under
`src/`; called at AudioNode.cpp line 374) removes every connection of the
output, derefing the downstream node once per removed connection, so the
output reports zero connections afterwards. -/
def AudioNodeOutput.disconnectAll (out : LifecycleOutput) : LifecycleOutput :=
  { out with connections := 0 }

/-- Modelled from the spec: `AudioNodeOutput::disable` (source not under
`src/`; called at AudioNode.cpp line 326) puts the output into the dormant
state, keeping it structurally present. -/
def AudioNodeOutput.disable (out : LifecycleOutput) : LifecycleOutput :=
  { out with enabled := false }

/-- Modelled from the spec: `AudioNodeOutput::enable` (source not under
`src/`; called at AudioNode.cpp line 300) re-enables a dormant output. -/
def AudioNodeOutput.enable (out : LifecycleOutput) : LifecycleOutput :=
  { out with enabled := true }

/-- The `AudioNode` members mutated by the lifecycle code (AudioNode.cpp
lines 294-386): node type, the two reference counters (C `int`s, hence
`Int`), the deletion mark, the disabled flag and the output array
(`none` = an empty slot of the fixed-size array). -/
structure LifecycleNode where
  nodeType : NodeType
  normalRefCount : Int
  connectionRefCount : Int
  isMarkedForDeletion : Bool
  isDisabled : Bool
  outputs : List (Option LifecycleOutput)
  deriving DecidableEq

/-- Embeds the `AudioNode` constructor (AudioNode.cpp lines 44-56) restricted
to the lifecycle fields: `normalRefCount = 1`, `connectionRefCount = 0`,
not marked, not disabled. -/
def AudioNode.create (nodeType : NodeType)
    (outputs : List (Option LifecycleOutput)) : LifecycleNode :=
  { nodeType := nodeType
    normalRefCount := 1
    connectionRefCount := 0
    isMarkedForDeletion := false
    isDisabled := false
    outputs := outputs }

/-- Embeds `AudioNode::enableOutputsIfNecessary` (AudioNode.cpp lines
294-302): when disabled and holding connection references, clear the
disabled flag and enable every registered output. -/
def AudioNode.enableOutputsIfNecessary (n : LifecycleNode) : LifecycleNode :=
  if n.isDisabled = true ∧ 0 < n.connectionRefCount then
    { n with
      isDisabled := false
      outputs := n.outputs.map (Option.map AudioNodeOutput.enable) }
  else n

/-- Embeds `AudioNode::disableOutputsIfNecessary` (AudioNode.cpp lines
304-329): with at most one connection reference and not yet disabled,
disable all registered outputs — unless the node is a convolver or a delay,
which are exempted because of their significant tail time. -/
def AudioNode.disableOutputsIfNecessary (n : LifecycleNode) : LifecycleNode :=
  if n.connectionRefCount ≤ 1 ∧ n.isDisabled = false then
    if n.nodeType ≠ NodeType.NodeTypeConvolver ∧
        n.nodeType ≠ NodeType.NodeTypeDelay then
      { n with
        isDisabled := true
        outputs := n.outputs.map (Option.map AudioNodeOutput.disable) }
    else n
  else n

/-- Embeds `AudioNode::ref` (AudioNode.cpp lines 331-347): increment the
matching counter; a connection ref additionally re-enables dormant
outputs. -/
def AudioNode.ref (n : LifecycleNode) (refType : RefType) : LifecycleNode :=
  match refType with
  | RefType.RefTypeNormal => { n with normalRefCount := n.normalRefCount + 1 }
  | RefType.RefTypeConnection =>
      AudioNode.enableOutputsIfNecessary
        { n with connectionRefCount := n.connectionRefCount + 1 }

/-- Total fan-out over all registered outputs of a node: the number of
downstream connection derefs `AudioNodeOutput::disconnectAll` issues when
the node is torn down. -/
def totalOutputConnections (n : LifecycleNode) : Nat :=
  (n.outputs.map (fun slot =>
    match slot with
    | some out => out.connections
    | none => 0)).sum

/-- Embeds the post-decrement part of `AudioNode::deref` (AudioNode.cpp lines
368-385).  Returns the new node together with the number of cascading
connection derefs issued to downstream nodes by `disconnectAll`. -/
def AudioNode.derefFinish (n : LifecycleNode) (refType : RefType) :
    LifecycleNode × Nat :=
  if n.connectionRefCount = 0 then
    if n.normalRefCount = 0 then
      if n.isMarkedForDeletion = false then
        ({ n with
            outputs := n.outputs.map (Option.map AudioNodeOutput.disconnectAll)
            isMarkedForDeletion := true },
          totalOutputConnections n)
      else (n, 0)
    else if refType = RefType.RefTypeConnection then
      (AudioNode.disableOutputsIfNecessary n, 0)
    else (n, 0)
  else (n, 0)

/-- Embeds `AudioNode::deref` (AudioNode.cpp lines 349-386): assert the
matching counter is positive (`Except.error` models the `ASSERT` firing),
decrement it, then run the exhaustion logic. -/
def AudioNode.deref (n : LifecycleNode) (refType : RefType) :
    Except String (LifecycleNode × Nat) :=
  match refType with
  | RefType.RefTypeNormal =>
      if 0 < n.normalRefCount then
        Except.ok (AudioNode.derefFinish
          { n with normalRefCount := n.normalRefCount - 1 } refType)
      else Except.error "ASSERT(m_normalRefCount > 0)"
  | RefType.RefTypeConnection =>
      if 0 < n.connectionRefCount then
        Except.ok (AudioNode.derefFinish
          { n with connectionRefCount := n.connectionRefCount - 1 } refType)
      else Except.error "ASSERT(m_connectionRefCount > 0)"

theorem enableOutputs_fields (n : LifecycleNode) :
    (AudioNode.enableOutputsIfNecessary n).isMarkedForDeletion
      = n.isMarkedForDeletion ∧
    (AudioNode.enableOutputsIfNecessary n).normalRefCount = n.normalRefCount ∧
    (AudioNode.enableOutputsIfNecessary n).connectionRefCount
      = n.connectionRefCount := by
  unfold AudioNode.enableOutputsIfNecessary
  split <;> exact ⟨rfl, rfl, rfl⟩

theorem disableOutputs_fields (n : LifecycleNode) :
    (AudioNode.disableOutputsIfNecessary n).isMarkedForDeletion
      = n.isMarkedForDeletion ∧
    (AudioNode.disableOutputsIfNecessary n).normalRefCount = n.normalRefCount ∧
    (AudioNode.disableOutputsIfNecessary n).connectionRefCount
      = n.connectionRefCount := by
  unfold AudioNode.disableOutputsIfNecessary
  split
  · split <;> exact ⟨rfl, rfl, rfl⟩
  · exact ⟨rfl, rfl, rfl⟩

theorem derefFinish_counts (n : LifecycleNode) (t : RefType) :
    (AudioNode.derefFinish n t).1.normalRefCount = n.normalRefCount ∧
    (AudioNode.derefFinish n t).1.connectionRefCount = n.connectionRefCount := by
  unfold AudioNode.derefFinish
  split
  · split
    · split <;> exact ⟨rfl, rfl⟩
    · split
      · exact ⟨(disableOutputs_fields n).2.1, (disableOutputs_fields n).2.2⟩
      · exact ⟨rfl, rfl⟩
  · exact ⟨rfl, rfl⟩

end Lifecycle


namespace Lifecycle

theorem disableOutputs_marked (n : LifecycleNode) :
    (AudioNode.disableOutputsIfNecessary n).isMarkedForDeletion
      = n.isMarkedForDeletion := (disableOutputs_fields n).1

theorem disableOutputs_normal (n : LifecycleNode) :
    (AudioNode.disableOutputsIfNecessary n).normalRefCount
      = n.normalRefCount := (disableOutputs_fields n).2.1

theorem disableOutputs_conn (n : LifecycleNode) :
    (AudioNode.disableOutputsIfNecessary n).connectionRefCount
      = n.connectionRefCount := (disableOutputs_fields n).2.2

/-- Case analysis of the post-decrement logic of `deref` (AudioNode.cpp lines
368-385): the deletion mark is newly set precisely when both counters are
zero on an unmarked node, the mark is never cleared, and the marking
transition leaves every registered output with zero connections while
issuing one downstream connection deref per removed connection. -/
theorem derefFinish_spec (m : LifecycleNode) (t : RefType) :
    (((AudioNode.derefFinish m t).1.isMarkedForDeletion = true ∧
        m.isMarkedForDeletion = false) ↔
      ((AudioNode.derefFinish m t).1.normalRefCount = 0 ∧
        (AudioNode.derefFinish m t).1.connectionRefCount = 0 ∧
        m.isMarkedForDeletion = false)) ∧
    (m.isMarkedForDeletion = true →
      (AudioNode.derefFinish m t).1.isMarkedForDeletion = true) ∧
    ((AudioNode.derefFinish m t).1.isMarkedForDeletion = true →
      m.isMarkedForDeletion = false →
      (∀ slot ∈ (AudioNode.derefFinish m t).1.outputs,
        ∀ out, slot = some out → out.connections = 0) ∧
      (AudioNode.derefFinish m t).2 = totalOutputConnections m) := by
  unfold AudioNode.derefFinish
  split_ifs with c1 c2 c3 c4
  · refine ⟨by simp [c1, c2, c3], by simp, fun _ _ => ⟨?_, rfl⟩⟩
    intro slot hslot out hout
    rw [List.mem_map] at hslot
    obtain ⟨s, _, rfl⟩ := hslot
    cases s with
    | none => cases hout
    | some o =>
      injection hout with h
      rw [h.symm]
      rfl
  · cases hm : m.isMarkedForDeletion <;> simp_all
  · cases hm : m.isMarkedForDeletion <;>
      simp_all [disableOutputs_marked, disableOutputs_normal, c2]
  · cases hm : m.isMarkedForDeletion <;> simp_all
  · cases hm : m.isMarkedForDeletion <;> simp_all

end Lifecycle

namespace Lifecycle

/-- C1: a `ref` never changes the deletion mark, and a successful `deref`
yields a newly-marked node precisely when it leaves both reference counters
at zero on a not-yet-marked node; that transition disconnects every
registered output (issuing one downstream connection deref per removed
connection), so afterwards all outputs report zero connections.  Together
with the second conjunct (the mark is never cleared) the mark is set exactly
once over any operation sequence. -/
theorem deref_marks_exactly_on_exhaustion (n : LifecycleNode) (t : RefType) :
    (AudioNode.ref n t).isMarkedForDeletion = n.isMarkedForDeletion ∧
    ∀ n' k, AudioNode.deref n t = Except.ok (n', k) →
      ((n'.isMarkedForDeletion = true ∧ n.isMarkedForDeletion = false) ↔
        (n'.normalRefCount = 0 ∧ n'.connectionRefCount = 0 ∧
          n.isMarkedForDeletion = false)) ∧
      (n.isMarkedForDeletion = true → n'.isMarkedForDeletion = true) ∧
      (n'.isMarkedForDeletion = true → n.isMarkedForDeletion = false →
        (∀ slot ∈ n'.outputs, ∀ out, slot = some out → out.connections = 0) ∧
        k = totalOutputConnections n) := by
  constructor
  · cases t with
    | RefTypeNormal => rfl
    | RefTypeConnection => exact (enableOutputs_fields _).1
  · intro n' k hok
    cases t with
    | RefTypeNormal =>
      simp only [AudioNode.deref] at hok
      split_ifs at hok with hpos
      rw [Except.ok.injEq] at hok
      have hn : (AudioNode.derefFinish
          { n with normalRefCount := n.normalRefCount - 1 }
          RefType.RefTypeNormal).1 = n' := by rw [hok]
      have hk : (AudioNode.derefFinish
          { n with normalRefCount := n.normalRefCount - 1 }
          RefType.RefTypeNormal).2 = k := by rw [hok]
      subst hn; subst hk
      have h := derefFinish_spec
        { n with normalRefCount := n.normalRefCount - 1 }
        RefType.RefTypeNormal
      exact ⟨h.1, h.2.1, fun h1 h2 => ⟨(h.2.2 h1 h2).1, (h.2.2 h1 h2).2⟩⟩
    | RefTypeConnection =>
      simp only [AudioNode.deref] at hok
      split_ifs at hok with hpos
      rw [Except.ok.injEq] at hok
      have hn : (AudioNode.derefFinish
          { n with connectionRefCount := n.connectionRefCount - 1 }
          RefType.RefTypeConnection).1 = n' := by rw [hok]
      have hk : (AudioNode.derefFinish
          { n with connectionRefCount := n.connectionRefCount - 1 }
          RefType.RefTypeConnection).2 = k := by rw [hok]
      subst hn; subst hk
      have h := derefFinish_spec
        { n with connectionRefCount := n.connectionRefCount - 1 }
        RefType.RefTypeConnection
      exact ⟨h.1, h.2.1, fun h1 h2 => ⟨(h.2.2 h1 h2).1, (h.2.2 h1 h2).2⟩⟩

end Lifecycle

namespace Lifecycle

/-- Helper: in the regime "connection counter zero, normal counter nonzero",
the post-decrement logic of a connection deref reduces to
`disableOutputsIfNecessary` (AudioNode.cpp lines 383-384). -/
theorem derefFinish_disable_case (m : LifecycleNode)
    (hc : m.connectionRefCount = 0) (hn : ¬m.normalRefCount = 0) :
    AudioNode.derefFinish m RefType.RefTypeConnection
      = (AudioNode.disableOutputsIfNecessary m, 0) := by
  unfold AudioNode.derefFinish
  rw [if_pos hc, if_neg hn, if_pos rfl]

/-- Helper: behaviour of `disableOutputsIfNecessary` when its guard holds:
non-exempt nodes are disabled together with all their registered outputs;
convolver and delay nodes are left untouched. -/
theorem disableOutputs_behaviour (m : LifecycleNode)
    (hc : m.connectionRefCount ≤ 1) (hd : m.isDisabled = false) :
    ((m.nodeType ≠ NodeType.NodeTypeConvolver ∧
        m.nodeType ≠ NodeType.NodeTypeDelay) →
      (AudioNode.disableOutputsIfNecessary m).isDisabled = true ∧
      ∀ slot ∈ (AudioNode.disableOutputsIfNecessary m).outputs,
        ∀ out, slot = some out → out.enabled = false) ∧
    ((m.nodeType = NodeType.NodeTypeConvolver ∨
        m.nodeType = NodeType.NodeTypeDelay) →
      (AudioNode.disableOutputsIfNecessary m).isDisabled = false ∧
      (AudioNode.disableOutputsIfNecessary m).outputs = m.outputs) := by
  unfold AudioNode.disableOutputsIfNecessary
  rw [if_pos ⟨hc, hd⟩]
  by_cases ht : m.nodeType ≠ NodeType.NodeTypeConvolver ∧
      m.nodeType ≠ NodeType.NodeTypeDelay
  · rw [if_pos ht]
    refine ⟨fun _ => ⟨rfl, ?_⟩, fun hty => absurd hty (by tauto)⟩
    intro slot hslot out hout
    rw [List.mem_map] at hslot
    obtain ⟨s, _, rfl⟩ := hslot
    cases s with
    | none => cases hout
    | some o =>
      injection hout with h
      rw [h.symm]
      rfl
  · rw [if_neg ht]
    exact ⟨fun hty => absurd hty ht, fun _ => ⟨hd, rfl⟩⟩

/-- C5: a connection deref that leaves `connectionRefCount` at zero while
`normalRefCount` stays positive on a not-disabled node puts the node and all
its registered outputs into the dormant (disabled) state — unless the node
is a convolver or a delay, in which case the disabled flag and the outputs
are left untouched. -/
theorem derefConnection_disables (n n' : LifecycleNode) (k : Nat)
    (hok : AudioNode.deref n RefType.RefTypeConnection = Except.ok (n', k))
    (hconn : n'.connectionRefCount = 0)
    (hnorm : 0 < n'.normalRefCount)
    (hdis : n.isDisabled = false) :
    ((n.nodeType ≠ NodeType.NodeTypeConvolver ∧
        n.nodeType ≠ NodeType.NodeTypeDelay) →
      n'.isDisabled = true ∧
      ∀ slot ∈ n'.outputs, ∀ out, slot = some out → out.enabled = false) ∧
    ((n.nodeType = NodeType.NodeTypeConvolver ∨
        n.nodeType = NodeType.NodeTypeDelay) →
      n'.isDisabled = false ∧ n'.outputs = n.outputs) := by
  simp only [AudioNode.deref] at hok
  split_ifs at hok with hpos
  rw [Except.ok.injEq] at hok
  have hn : (AudioNode.derefFinish
      { n with connectionRefCount := n.connectionRefCount - 1 }
      RefType.RefTypeConnection).1 = n' := by rw [hok]
  subst hn
  rw [(derefFinish_counts _ _).2] at hconn
  rw [(derefFinish_counts _ _).1] at hnorm
  have hn0 : ¬({ n with connectionRefCount := n.connectionRefCount - 1 }
      : LifecycleNode).normalRefCount = 0 := by omega
  rw [derefFinish_disable_case _ hconn hn0]
  have hcle : ({ n with connectionRefCount := n.connectionRefCount - 1 }
      : LifecycleNode).connectionRefCount ≤ 1 := by omega
  exact disableOutputs_behaviour _ hcle hdis

/-- C8: a node is created with counters `(1, 0)`; `ref` keeps both counters
nonnegative; calling `deref` with the matching counter already at zero
signals the programming error (the `ASSERT` firing) instead of decrementing
the counter below zero; and a successful `deref` keeps both counters
nonnegative. -/
theorem refCounts_nonneg (ty : NodeType) (outs : List (Option LifecycleOutput))
    (n : LifecycleNode) (t : RefType) :
    ((AudioNode.create ty outs).normalRefCount = 1 ∧
      (AudioNode.create ty outs).connectionRefCount = 0) ∧
    (0 ≤ n.normalRefCount → 0 ≤ n.connectionRefCount →
      0 ≤ (AudioNode.ref n t).normalRefCount ∧
      0 ≤ (AudioNode.ref n t).connectionRefCount) ∧
    (n.normalRefCount = 0 →
      AudioNode.deref n RefType.RefTypeNormal
        = Except.error "ASSERT(m_normalRefCount > 0)") ∧
    (n.connectionRefCount = 0 →
      AudioNode.deref n RefType.RefTypeConnection
        = Except.error "ASSERT(m_connectionRefCount > 0)") ∧
    (∀ n' k, 0 ≤ n.normalRefCount → 0 ≤ n.connectionRefCount →
      AudioNode.deref n t = Except.ok (n', k) →
      0 ≤ n'.normalRefCount ∧ 0 ≤ n'.connectionRefCount) := by
  refine ⟨⟨rfl, rfl⟩, ?_, ?_, ?_, ?_⟩
  · intro h1 h2
    cases t with
    | RefTypeNormal =>
      simp only [AudioNode.ref]
      constructor <;> omega
    | RefTypeConnection =>
      have hf := enableOutputs_fields
        { n with connectionRefCount := n.connectionRefCount + 1 }
      simp only [AudioNode.ref]
      rw [hf.2.1, hf.2.2]
      constructor <;> (try simp) <;> omega
  · intro h
    simp [AudioNode.deref, h]
  · intro h
    simp [AudioNode.deref, h]
  · intro n' k h1 h2 hok
    cases t with
    | RefTypeNormal =>
      simp only [AudioNode.deref] at hok
      split_ifs at hok with hpos
      rw [Except.ok.injEq] at hok
      have hn : (AudioNode.derefFinish
          { n with normalRefCount := n.normalRefCount - 1 }
          RefType.RefTypeNormal).1 = n' := by rw [hok]
      subst hn
      rw [(derefFinish_counts _ _).1, (derefFinish_counts _ _).2]
      constructor <;> (try simp) <;> omega
    | RefTypeConnection =>
      simp only [AudioNode.deref] at hok
      split_ifs at hok with hpos
      rw [Except.ok.injEq] at hok
      have hn : (AudioNode.derefFinish
          { n with connectionRefCount := n.connectionRefCount - 1 }
          RefType.RefTypeConnection).1 = n' := by rw [hok]
      subst hn
      rw [(derefFinish_counts _ _).1, (derefFinish_counts _ _).2]
      constructor <;> (try simp) <;> omega

end Lifecycle

namespace Lifecycle

/-- A concrete node holding its last connection reference: one registered
output with fan-out 2, one empty slot. -/
def nodeC1 : LifecycleNode :=
  { nodeType := NodeType.NodeTypeOther
    normalRefCount := 0
    connectionRefCount := 1
    isMarkedForDeletion := false
    isDisabled := false
    outputs := [some ⟨2, true⟩, none] }

/-- The node `nodeC1` after its final connection deref: marked, with both
outputs' connections removed. -/
def nodeC1marked : LifecycleNode :=
  { nodeType := NodeType.NodeTypeOther
    normalRefCount := 0
    connectionRefCount := 0
    isMarkedForDeletion := true
    isDisabled := false
    outputs := [some ⟨0, true⟩, none] }

/-- Witness for C1: the marking characterisation evaluated on the concrete
final connection deref of `nodeC1`. -/
theorem deref_marks_exactly_on_exhaustion_witness :
    (AudioNode.ref nodeC1 RefType.RefTypeConnection).isMarkedForDeletion
      = nodeC1.isMarkedForDeletion ∧
    (((nodeC1marked.isMarkedForDeletion = true ∧
        nodeC1.isMarkedForDeletion = false) ↔
      (nodeC1marked.normalRefCount = 0 ∧ nodeC1marked.connectionRefCount = 0 ∧
        nodeC1.isMarkedForDeletion = false)) ∧
    (nodeC1.isMarkedForDeletion = true →
      nodeC1marked.isMarkedForDeletion = true) ∧
    (nodeC1marked.isMarkedForDeletion = true →
      nodeC1.isMarkedForDeletion = false →
      (∀ slot ∈ nodeC1marked.outputs,
        ∀ out, slot = some out → out.connections = 0) ∧
      2 = totalOutputConnections nodeC1)) :=
  ⟨(deref_marks_exactly_on_exhaustion nodeC1 RefType.RefTypeConnection).1,
    (deref_marks_exactly_on_exhaustion nodeC1 RefType.RefTypeConnection).2
      nodeC1marked 2 rfl⟩

/-- A concrete not-disabled non-exempt node about to lose its last
connection reference while a user handle remains. -/
def nodeC5 : LifecycleNode :=
  { nodeType := NodeType.NodeTypeOther
    normalRefCount := 1
    connectionRefCount := 1
    isMarkedForDeletion := false
    isDisabled := false
    outputs := [some ⟨3, true⟩] }

/-- The node `nodeC5` after the connection deref: disabled, its output
dormant. -/
def nodeC5dormant : LifecycleNode :=
  { nodeType := NodeType.NodeTypeOther
    normalRefCount := 1
    connectionRefCount := 0
    isMarkedForDeletion := false
    isDisabled := true
    outputs := [some ⟨3, false⟩] }

/-- Witness for C5: the disable behaviour evaluated on the concrete
connection deref of `nodeC5`. -/
theorem derefConnection_disables_witness :
    ((nodeC5.nodeType ≠ NodeType.NodeTypeConvolver ∧
        nodeC5.nodeType ≠ NodeType.NodeTypeDelay) →
      nodeC5dormant.isDisabled = true ∧
      ∀ slot ∈ nodeC5dormant.outputs,
        ∀ out, slot = some out → out.enabled = false) ∧
    ((nodeC5.nodeType = NodeType.NodeTypeConvolver ∨
        nodeC5.nodeType = NodeType.NodeTypeDelay) →
      nodeC5dormant.isDisabled = false ∧
      nodeC5dormant.outputs = nodeC5.outputs) :=
  derefConnection_disables nodeC5 nodeC5dormant 0 rfl rfl (by decide) rfl

/-- A concrete freshly-created node (counters `(1, 0)`). -/
def nodeC8 : LifecycleNode := AudioNode.create NodeType.NodeTypeOther []

/-- Witness for C8: nonnegativity and the assert-at-zero behaviour evaluated
on the concrete node `nodeC8`. -/
theorem refCounts_nonneg_witness :
    (0 ≤ (AudioNode.ref nodeC8 RefType.RefTypeNormal).normalRefCount ∧
      0 ≤ (AudioNode.ref nodeC8 RefType.RefTypeNormal).connectionRefCount) ∧
    AudioNode.deref nodeC8 RefType.RefTypeConnection
      = Except.error "ASSERT(m_connectionRefCount > 0)" ∧
    (0 ≤ ({ nodeC8 with
        normalRefCount := 0
        isMarkedForDeletion := true } : LifecycleNode).normalRefCount ∧
      0 ≤ ({ nodeC8 with
        normalRefCount := 0
        isMarkedForDeletion := true } : LifecycleNode).connectionRefCount) :=
  ⟨(refCounts_nonneg NodeType.NodeTypeOther [] nodeC8
      RefType.RefTypeNormal).2.1 (by decide) (by decide),
    (refCounts_nonneg NodeType.NodeTypeOther [] nodeC8
      RefType.RefTypeNormal).2.2.2.1 rfl,
    (refCounts_nonneg NodeType.NodeTypeOther [] nodeC8
      RefType.RefTypeNormal).2.2.2.2
      { nodeC8 with normalRefCount := 0, isMarkedForDeletion := true } 0
      (by decide) (by decide) rfl⟩

end Lifecycle

namespace Api

/-- The two `ExceptionCode` values the binding-layer entry points of
AudioNode.cpp assign (lines 154-209). -/
inductive ExceptionCode where
  | SYNTAX_ERR
  | INDEX_SIZE_ERR
  deriving DecidableEq

/-- A node as seen by the `connect`/`disconnect` entry points: its identity
and its registered port counts (`m_inputCount` / `m_outputCount`, returned
by `numberOfInputs()` / `numberOfOutputs()`). -/
structure ApiNode where
  id : Nat
  inputCount : Nat
  outputCount : Nat
  deriving DecidableEq

/-- The connection graph owned by the `AudioContext`: edges are
(source node, output index, destination node, input index). -/
structure ConnectGraph where
  edges : List (Nat × Nat × Nat × Nat)
  deriving DecidableEq

/-- Modelled from the spec: `AudioContext::connect(input, output)`
(AudioContext is not under `src/`; called at AudioNode.cpp line 182)
records the new edge in the graph. -/
def AudioContext.connect (g : ConnectGraph)
    (srcId outputIndex dstId inputIndex : Nat) : ConnectGraph :=
  { edges := g.edges ++ [(srcId, outputIndex, dstId, inputIndex)] }

/-- Modelled from the spec: `AudioContext::disconnect(output)` (AudioContext
is not under `src/`; called at AudioNode.cpp line 208) removes the given
output's connections from the graph. -/
def AudioContext.disconnect (g : ConnectGraph) (srcId outputIndex : Nat) :
    ConnectGraph :=
  { edges := g.edges.filter
      (fun e => !(e.1 == srcId && e.2.1 == outputIndex)) }

/-- Embeds `AudioNode::connect` (AudioNode.cpp lines 154-183): a null
context or destination sets `SYNTAX_ERR`, an out-of-range output or input
index sets `INDEX_SIZE_ERR`, each returning before touching the graph;
otherwise the context records the connection. -/
def AudioNode.connect (self : ApiNode) (contextPresent : Bool)
    (destination : Option ApiNode) (outputIndex inputIndex : Nat)
    (g : ConnectGraph) : Option ExceptionCode × ConnectGraph :=
  if contextPresent = false then (some ExceptionCode.SYNTAX_ERR, g)
  else
    match destination with
    | none => (some ExceptionCode.SYNTAX_ERR, g)
    | some dst =>
      if self.outputCount ≤ outputIndex then
        (some ExceptionCode.INDEX_SIZE_ERR, g)
      else if dst.inputCount ≤ inputIndex then
        (some ExceptionCode.INDEX_SIZE_ERR, g)
      else
        (none, AudioContext.connect g self.id outputIndex dst.id inputIndex)

/-- Embeds `AudioNode::disconnect` (AudioNode.cpp lines 200-209): only the
output index is validated; the context pointer is then dereferenced with no
null check — the `none` result models that null dereference (a crash, not a
reported error). -/
def AudioNode.disconnect (self : ApiNode) (contextPresent : Bool)
    (outputIndex : Nat) (g : ConnectGraph) :
    Option (Option ExceptionCode × ConnectGraph) :=
  if self.outputCount ≤ outputIndex then
    some (some ExceptionCode.INDEX_SIZE_ERR, g)
  else if contextPresent = false then none
  else some (none, AudioContext.disconnect g self.id outputIndex)

/-- A concrete node with one input and one output. -/
def nodeC9 : ApiNode := ⟨0, 1, 1⟩

/-- A concrete destination node with one input and one output. -/
def dstC9 : ApiNode := ⟨1, 1, 1⟩

/-- A concrete empty connection graph. -/
def graphC9 : ConnectGraph := ⟨[]⟩

/-- C9 counterexample: `disconnect` with an in-range output index and an
absent (null) context reports no invalid-argument condition at all — the
null context pointer is dereferenced (`none` models that crash) — refuting
the claim that an absent required context handle is reported to the caller
as a syntax error. -/
theorem disconnect_null_context_not_reported :
    AudioNode.disconnect nodeC9 false 0 graphC9 = none := rfl

/-- C9 (amended): `connect` reports a syntax error when the context or the
destination handle is absent and an index-size error when either index is
out of range, returning with the graph unmodified in every error case;
`disconnect` validates only its output index, reporting an index-size error
with the graph unmodified — it does not validate the context handle. -/
theorem connect_error_cases (self dst : ApiNode)
    (outputIndex inputIndex : Nat) (g : ConnectGraph) (cp : Bool) :
    (AudioNode.connect self false (some dst) outputIndex inputIndex g
      = (some ExceptionCode.SYNTAX_ERR, g)) ∧
    (AudioNode.connect self true none outputIndex inputIndex g
      = (some ExceptionCode.SYNTAX_ERR, g)) ∧
    (self.outputCount ≤ outputIndex →
      AudioNode.connect self true (some dst) outputIndex inputIndex g
        = (some ExceptionCode.INDEX_SIZE_ERR, g)) ∧
    (outputIndex < self.outputCount → dst.inputCount ≤ inputIndex →
      AudioNode.connect self true (some dst) outputIndex inputIndex g
        = (some ExceptionCode.INDEX_SIZE_ERR, g)) ∧
    (self.outputCount ≤ outputIndex →
      AudioNode.disconnect self cp outputIndex g
        = some (some ExceptionCode.INDEX_SIZE_ERR, g)) := by
  refine ⟨rfl, rfl, ?_, ?_, ?_⟩
  · intro h
    simp [AudioNode.connect, h]
  · intro h1 h2
    have h1' : ¬self.outputCount ≤ outputIndex := Nat.not_le.mpr h1
    simp [AudioNode.connect, h1', h2]
  · intro h
    simp [AudioNode.disconnect, h]

/-- Witness for the amended C9: the index error cases evaluated on the
concrete nodes `nodeC9` and `dstC9`. -/
theorem connect_error_cases_witness :
    (AudioNode.connect nodeC9 true (some dstC9) 1 0 graphC9
      = (some ExceptionCode.INDEX_SIZE_ERR, graphC9)) ∧
    (AudioNode.connect nodeC9 true (some dstC9) 0 1 graphC9
      = (some ExceptionCode.INDEX_SIZE_ERR, graphC9)) ∧
    (AudioNode.disconnect nodeC9 true 1 graphC9
      = some (some ExceptionCode.INDEX_SIZE_ERR, graphC9)) :=
  ⟨(connect_error_cases nodeC9 dstC9 1 0 graphC9 true).2.2.1 (by decide),
    (connect_error_cases nodeC9 dstC9 0 1 graphC9 true).2.2.2.1
      (by decide) (by decide),
    (connect_error_cases nodeC9 dstC9 1 0 graphC9 true).2.2.2.2 (by decide)⟩

end Api

namespace Merger

/-- An input of the channel-merging node as its processing code observes it:
`isConnected()` and the channels of its bus (each channel a list of
samples). -/
structure MergerInput where
  connected : Bool
  channels : List (List ℚ)
  deriving DecidableEq

/-- The node's single output: the channels of its bus;
`numberOfChannels()` is their count. -/
structure MergerOutput where
  channels : List (List ℚ)
  deriving DecidableEq

/-- The `ChannelMergerNode` state touched by ChannelMergerNode.cpp: the
input list, the output, and `m_desiredNumberOfOutputChannels`. -/
structure MergerState where
  inputs : List MergerInput
  output : MergerOutput
  desiredNumberOfOutputChannels : Nat
  deriving DecidableEq

/-- Sum of the channel counts of all currently connected inputs — the count
computed by `checkNumberOfChannelsForInput` (ChannelMergerNode.cpp lines
78-89). -/
def channelSum (inputs : List MergerInput) : Nat :=
  (inputs.map (fun i => if i.connected then i.channels.length else 0)).sum

/-- Modelled from the spec: `AudioNodeOutput::setNumberOfChannels` (not
under `src/`; called at ChannelMergerNode.cpp line 93) resizes the output
bus to `n` channels; the tryLocks in the context's updating system can
defer the resize, which `applied = false` models. -/
def AudioNodeOutput.setNumberOfChannels (out : MergerOutput) (n : Nat)
    (applied : Bool) : MergerOutput :=
  if applied then { channels := List.replicate n [] } else out

/-- Embeds `ChannelMergerNode::checkNumberOfChannelsForInput`
(ChannelMergerNode.cpp lines 76-101): recompute the output channel count as
the sum over connected inputs, apply it to the output (possibly deferred),
and record it as the desired count. -/
def checkNumberOfChannelsForInput (st : MergerState) (applied : Bool) :
    MergerState :=
  { st with
    output := AudioNodeOutput.setNumberOfChannels st.output
      (channelSum st.inputs) applied
    desiredNumberOfOutputChannels := channelSum st.inputs }

/-- The inner merge loop (ChannelMergerNode.cpp lines 56-63): copy the
channels `chs` into successive output channel slots starting at `idx`
(`outputChannel->copyFrom(inputChannel); ++outputChannelIndex`). -/
def writeChannels (outChans : List (List ℚ)) (idx : Nat) :
    List (List ℚ) → List (List ℚ)
  | [] => outChans
  | ch :: chs => writeChannels (outChans.set idx ch) (idx + 1) chs

/-- The outer merge loop over the inputs (ChannelMergerNode.cpp lines
45-65): each connected input's channels go to successive output channel
slots, in input order. -/
def mergeLoop (outChans : List (List ℚ)) (idx : Nat) :
    List MergerInput → List (List ℚ)
  | [] => outChans
  | inp :: rest =>
    if inp.connected = true then
      mergeLoop (writeChannels outChans idx inp.channels)
        (idx + inp.channels.length) rest
    else
      mergeLoop outChans idx rest

/-- Embeds `ChannelMergerNode::process` (ChannelMergerNode.cpp lines 33-68):
if the desired channel count differs from the output's applied count, the
output bus is zeroed and nothing is merged; otherwise all connected inputs'
channels are merged in input order into successive output channels. -/
def zeroBus (out : MergerOutput) : MergerOutput :=
  { channels := out.channels.map (fun ch => ch.map (fun _ => (0 : ℚ))) }

def process (st : MergerState) : MergerState :=
  if st.desiredNumberOfOutputChannels ≠ st.output.channels.length then
    { st with output := zeroBus st.output }
  else
    { st with output := { channels := mergeLoop st.output.channels 0 st.inputs } }

/-- The channels of all connected inputs concatenated in input order — the
intended content of the merged output bus. -/
def mergedChannels (inputs : List MergerInput) : List (List ℚ) :=
  (inputs.map (fun i => if i.connected then i.channels else [])).flatten

theorem length_mergedChannels (inputs : List MergerInput) :
    (mergedChannels inputs).length = channelSum inputs := by
  induction inputs with
  | nil => rfl
  | cons i rest ih =>
    by_cases hc : i.connected <;>
      simp [mergedChannels, channelSum, hc] <;>
      simpa [mergedChannels, channelSum, hc] using ih

theorem writeChannels_append (chs : List (List ℚ)) :
    ∀ (pre suffix : List (List ℚ)), chs.length ≤ suffix.length →
      writeChannels (pre ++ suffix) pre.length chs
        = pre ++ chs ++ suffix.drop chs.length := by
  induction chs with
  | nil => intro pre suffix _; simp [writeChannels]
  | cons ch chs ih =>
    intro pre suffix h
    cases suffix with
    | nil => simp at h
    | cons s0 srest =>
      show writeChannels ((pre ++ s0 :: srest).set pre.length ch)
        (pre.length + 1) chs = _
      have hset : (pre ++ s0 :: srest).set pre.length ch
          = pre ++ ch :: srest := by
        rw [List.set_append_right _ _ (le_refl _)]
        simp
      rw [hset]
      have hlen : pre.length + 1 = (pre ++ [ch]).length := by simp
      have happ : pre ++ ch :: srest = (pre ++ [ch]) ++ srest := by simp
      rw [hlen, happ, ih (pre ++ [ch]) srest (by simpa using h)]
      simp

theorem writeChannels_eq (outChans chs : List (List ℚ)) (idx : Nat)
    (h : idx + chs.length ≤ outChans.length) :
    writeChannels outChans idx chs
      = outChans.take idx ++ chs ++ outChans.drop (idx + chs.length) := by
  have hpre : (outChans.take idx).length = idx := by
    rw [List.length_take]
    omega
  calc writeChannels outChans idx chs
      = writeChannels (outChans.take idx ++ outChans.drop idx)
          (outChans.take idx).length chs := by
        rw [List.take_append_drop, hpre]
    _ = outChans.take idx ++ chs ++ (outChans.drop idx).drop chs.length := by
        refine writeChannels_append chs _ _ ?_
        rw [List.length_drop]
        omega
    _ = outChans.take idx ++ chs ++ outChans.drop (idx + chs.length) := by
        rw [List.drop_drop]

theorem mergeLoop_eq (inputs : List MergerInput) :
    ∀ (outChans : List (List ℚ)) (idx : Nat),
      idx + (mergedChannels inputs).length ≤ outChans.length →
      mergeLoop outChans idx inputs
        = outChans.take idx ++ mergedChannels inputs
            ++ outChans.drop (idx + (mergedChannels inputs).length) := by
  induction inputs with
  | nil =>
    intro outChans idx h
    simp only [mergeLoop, mergedChannels, List.map_nil, List.flatten_nil,
      List.length_nil, List.append_nil, Nat.add_zero]
    rw [List.take_append_drop]
  | cons inp rest ih =>
    intro outChans idx h
    by_cases hc : inp.connected = true
    · have hmerged : mergedChannels (inp :: rest)
          = inp.channels ++ mergedChannels rest := by
        simp [mergedChannels, hc]
      rw [hmerged] at h ⊢
      simp only [List.length_append] at h
      simp only [mergeLoop, if_pos hc]
      rw [writeChannels_eq outChans inp.channels idx (by omega)]
      have hW : outChans.take idx ++ inp.channels
            ++ outChans.drop (idx + inp.channels.length)
          = (outChans.take idx ++ inp.channels)
            ++ outChans.drop (idx + inp.channels.length) := by
        simp
      have hWpre : (outChans.take idx ++ inp.channels).length
          = idx + inp.channels.length := by
        simp [List.length_take]
        omega
      rw [hW, ih _ (idx + inp.channels.length) (by
        simp [List.length_take, List.length_drop]
        omega)]
      rw [List.take_left' hWpre]
      have hdropW : ((outChans.take idx ++ inp.channels)
            ++ outChans.drop (idx + inp.channels.length)).drop
              (idx + inp.channels.length + (mergedChannels rest).length)
          = outChans.drop
              (idx + (inp.channels.length + (mergedChannels rest).length)) := by
        rw [show idx + inp.channels.length + (mergedChannels rest).length
            = (outChans.take idx ++ inp.channels).length
              + (mergedChannels rest).length from by rw [hWpre]]
        rw [List.drop_append, List.drop_drop]
        congr 1
        omega
      rw [hdropW]
      simp [List.append_assoc, List.length_append]
    · have hmerged : mergedChannels (inp :: rest) = mergedChannels rest := by
        simp [mergedChannels, hc]
      simp only [mergeLoop, if_neg hc]
      rw [hmerged] at h ⊢
      exact ih outChans idx h

end Merger

namespace Merger

/-- C6: after an input connectivity change, the desired output channel count
is recomputed as the sum of the connected inputs' channel counts (and
applied to the output when the resize is not deferred); `process` emits
silence (zeroing the output bus, merging nothing) while the desired count
differs from the applied one; and once they agree (and match the connected
inputs), the output channels are exactly the connected inputs' channels
concatenated in input order. -/
theorem channelMerger_spec (st : MergerState) (applied : Bool) :
    ((checkNumberOfChannelsForInput st applied).desiredNumberOfOutputChannels
        = channelSum st.inputs ∧
      (applied = true →
        (checkNumberOfChannelsForInput st applied).output.channels.length
          = channelSum st.inputs)) ∧
    (st.desiredNumberOfOutputChannels ≠ st.output.channels.length →
      (process st).output = zeroBus st.output ∧
      (process st).inputs = st.inputs ∧
      (process st).desiredNumberOfOutputChannels
        = st.desiredNumberOfOutputChannels) ∧
    (st.desiredNumberOfOutputChannels = st.output.channels.length →
      st.desiredNumberOfOutputChannels = channelSum st.inputs →
      (process st).output.channels = mergedChannels st.inputs) := by
  refine ⟨⟨rfl, ?_⟩, ?_, ?_⟩
  · intro h
    simp [checkNumberOfChannelsForInput, AudioNodeOutput.setNumberOfChannels, h]
  · intro h
    simp [process, h]
  · intro h1 h2
    have hred : (process st).output.channels
        = mergeLoop st.output.channels 0 st.inputs := by
      simp [process, not_not_intro h1]
    rw [hred]
    have hlen : (mergedChannels st.inputs).length = st.output.channels.length := by
      rw [length_mergedChannels]
      omega
    rw [mergeLoop_eq st.inputs st.output.channels 0 (by omega)]
    simp [List.drop_eq_nil_of_le (le_of_eq hlen.symm)]

/-- A concrete merger state with three inputs of channel counts 2, 1
(disconnected) and 1, whose output already carries the applied channel
count 3. -/
def stMerge : MergerState :=
  { inputs :=
      [⟨true, [[1], [2]]⟩, ⟨false, [[9]]⟩, ⟨true, [[3]]⟩]
    output := ⟨[[5], [5], [5]]⟩
    desiredNumberOfOutputChannels := 3 }

/-- A concrete merger state whose desired channel count (2) has not yet been
applied to the output (3 channels). -/
def stMergeStale : MergerState :=
  { inputs := [⟨true, [[1], [2]]⟩]
    output := ⟨[[5], [5], [5]]⟩
    desiredNumberOfOutputChannels := 2 }

/-- Witness for C6: renegotiation, the stale-silence branch and the merge
branch evaluated on the concrete states `stMerge` and `stMergeStale`. -/
theorem channelMerger_spec_witness :
    (checkNumberOfChannelsForInput stMerge true).desiredNumberOfOutputChannels
      = channelSum stMerge.inputs ∧
    (checkNumberOfChannelsForInput stMerge true).output.channels.length
      = channelSum stMerge.inputs ∧
    (process stMergeStale).output = zeroBus stMergeStale.output ∧
    (process stMerge).output.channels = mergedChannels stMerge.inputs :=
  ⟨(channelMerger_spec stMerge true).1.1,
    (channelMerger_spec stMerge true).1.2 rfl,
    ((channelMerger_spec stMergeStale true).2.1 (by decide)).1,
    (channelMerger_spec stMerge true).2.2 (by decide) (by decide)⟩

end Merger

namespace Render

/-- Engine-wide port-count bounds `AUDIONODE_MAXINPUTS` and
`AUDIONODE_MAXOUTPUTS` (fixed configuration constants from the engine
header; AudioNode.cpp uses them only as the array bounds). -/
structure EngineConfig where
  maxInputs : Nat
  maxOutputs : Nat
  deriving DecidableEq

/-- The render-context observables `processIfNecessary` reads: whether
`r.context()` is non-null, `currentTime()`, and `currentSampleFrame()`. -/
structure RenderContext where
  present : Bool
  currentTime : ℚ
  currentSampleFrame : Nat
  deriving DecidableEq

/-- An `AudioNodeOutput` as the render path observes it: the silent flag of
its bus (`bus()->isSilent()`; `zero()` sets it, `clearSilentFlag()` clears
it). -/
structure RenderOutput where
  silent : Bool
  deriving DecidableEq

/-- An `AudioNodeInput` as the render path observes it: its upstream
connections as (node index, output index) pairs. -/
structure RenderInput where
  sources : List (Nat × Nat)
  deriving DecidableEq

/-- The `AudioNode` members touched by the render scheduler (AudioNode.cpp
lines 211-292), with `none` marking empty slots of the fixed-size port
arrays, plus a `processCount` instrumentation counter recording how often
the node's `process` step ran. -/
structure RenderNode where
  isInitialized : Bool
  sampleRate : ℚ
  lastProcessingTime : ℚ
  lastNonSilentTime : ℚ
  latencyTime : ℚ
  tailTime : ℚ
  inputs : List (Option RenderInput)
  outputs : List (Option RenderOutput)
  processCount : Nat
  deriving DecidableEq

/-- The rendering graph: nodes addressed by list index. -/
abbrev RenderGraph := List RenderNode

/-- Embeds `AudioNode::input` (AudioNode.cpp lines 140-145): slot `i` of
the fixed-size input array when `i < AUDIONODE_MAXINPUTS`, null
otherwise. -/
def AudioNode.input (cfg : EngineConfig) (n : RenderNode) (i : Nat) :
    Option RenderInput :=
  if i < cfg.maxInputs then n.inputs.getD i none else none

/-- Embeds `AudioNode::output` (AudioNode.cpp lines 147-152): slot `i` of
the fixed-size output array when `i < AUDIONODE_MAXOUTPUTS`, null
otherwise. -/
def AudioNode.output (cfg : EngineConfig) (n : RenderNode) (i : Nat) :
    Option RenderOutput :=
  if i < cfg.maxOutputs then n.outputs.getD i none else none

/-- Embeds `AudioNode::propagatesSilence` (AudioNode.cpp lines 256-259):
`m_lastNonSilentTime + latencyTime() + tailTime() < now`. -/
def AudioNode.propagatesSilence (n : RenderNode) (now : ℚ) : Bool :=
  decide (n.lastNonSilentTime + n.latencyTime + n.tailTime < now)

/-- Silence of the bus of output `src.2` of node `src.1` in graph `g`; an
absent node or output slot contributes silence. -/
def sourceSilent (cfg : EngineConfig) (g : RenderGraph) (src : Nat × Nat) :
    Bool :=
  match g[src.1]? with
  | none => true
  | some n =>
    match AudioNode.output cfg n src.2 with
    | none => true
    | some out => out.silent

/-- Modelled from the spec: the bus an `AudioNodeInput` exposes
(AudioNodeInput is not under `src/`) aggregates the connected upstream
outputs, so `bus()->isSilent()` holds iff every connected upstream output's
bus is silent — vacuously for an unconnected input. -/
def inputBusSilent (cfg : EngineConfig) (g : RenderGraph)
    (inp : RenderInput) : Bool :=
  inp.sources.all (fun src => sourceSilent cfg g src)

/-- Embeds `AudioNode::inputsAreSilent` (AudioNode.cpp lines 270-278):
every registered input's bus is silent; empty slots are skipped. -/
def AudioNode.inputsAreSilent (cfg : EngineConfig) (g : RenderGraph)
    (n : RenderNode) : Bool :=
  (((List.range cfg.maxInputs).filterMap
    (fun i => AudioNode.input cfg n i))).all
    (fun inp => inputBusSilent cfg g inp)

/-- The per-slot update of `silenceOutputs` and `unsilenceOutputs`
(AudioNode.cpp lines 280-292): slots below the array bound holding an
output get their bus silent flag set to `flag`; empty slots are skipped. -/
def setSilentSlots (maxO : Nat) (flag : Bool) :
    Nat → List (Option RenderOutput) → List (Option RenderOutput)
  | _, [] => []
  | i, slot :: rest =>
    (if i < maxO then slot.map (fun out => { out with silent := flag })
      else slot) :: setSilentSlots maxO flag (i + 1) rest

/-- Embeds `AudioNode::silenceOutputs` (AudioNode.cpp lines 280-285):
`bus()->zero()` on every registered output, which marks the bus silent. -/
def AudioNode.silenceOutputs (cfg : EngineConfig) (n : RenderNode) :
    RenderNode :=
  { n with outputs := setSilentSlots cfg.maxOutputs true 0 n.outputs }

/-- Embeds `AudioNode::unsilenceOutputs` (AudioNode.cpp lines 287-292):
`bus()->clearSilentFlag()` on every registered output. -/
def AudioNode.unsilenceOutputs (cfg : EngineConfig) (n : RenderNode) :
    RenderNode :=
  { n with outputs := setSilentSlots cfg.maxOutputs false 0 n.outputs }

/-- The upstream node indices pulled by `pullInputs` (AudioNode.cpp lines
261-268) through `AudioNodeInput::pull` on each registered input (modelled
from the spec: `pull` processes each connected upstream output's node):
slots in index order, connections in order within a slot. -/
def pullOrder (cfg : EngineConfig) (n : RenderNode) : List Nat :=
  (((List.range cfg.maxInputs).filterMap
    (fun i => AudioNode.input cfg n i)).map
    (fun inp => inp.sources.map (fun src => src.1))).flatten

/-- The tail of the first-invocation path of `processIfNecessary`
(AudioNode.cpp lines 229-241), evaluated after the inputs were pulled:
observe whether all inputs are silent, update `m_lastNonSilentTime` to the
end-of-quantum sample time when they are not, and either substitute silence
into the outputs (skipping the processing step) or run the processing step
and unsilence the outputs. -/
def finishNode (cfg : EngineConfig) (rc : RenderContext) (frames : Nat)
    (g2 : RenderGraph) (node2 : RenderNode) : RenderNode :=
  let silentInputs := AudioNode.inputsAreSilent cfg g2 node2
  let node3 :=
    if silentInputs = true then node2
    else { node2 with lastNonSilentTime :=
      ((rc.currentSampleFrame + frames : Nat) : ℚ) / node2.sampleRate }
  if silentInputs = true ∧
      AudioNode.propagatesSilence node3 rc.currentTime = true then
    AudioNode.silenceOutputs cfg node3
  else
    AudioNode.unsilenceOutputs cfg
      { node3 with processCount := node3.processCount + 1 }

/-- Folds a per-node processing step over a worklist of node indices — the
shape of the `pullInputs` traversal (AudioNode.cpp lines 261-268). -/
def pullWith (step : Nat → RenderGraph → RenderGraph) (ids : List Nat)
    (g : RenderGraph) : RenderGraph :=
  ids.foldl (fun acc s => step s acc) g

/-- Applies `finishNode` to the node `nodeId` of the pulled graph — the
writeback ending the first-invocation path of `processIfNecessary`. -/
def finishGraph (cfg : EngineConfig) (rc : RenderContext) (frames : Nat)
    (nodeId : Nat) (g2 : RenderGraph) : RenderGraph :=
  match g2[nodeId]? with
  | none => g2
  | some node2 => g2.set nodeId (finishNode cfg rc frames g2 node2)

/-- Embeds `AudioNode::processIfNecessary` (AudioNode.cpp lines 211-243):
no-op without a context or on an uninitialized node; no-op when the node
already processed this quantum (`m_lastProcessingTime == currentTime`);
otherwise record the timestamp FIRST (the comment at line 227: "important
to first update this time because of feedback loops"), pull all inputs —
recursing into the upstream nodes — and finish the node on the pulled
graph.  `fuel` bounds the nesting depth of upstream pulls (the code's
recursion terminates through the timestamp guard; see the
fuel-independence theorem below). -/
def processIfNecessary (cfg : EngineConfig) (rc : RenderContext)
    (frames : Nat) : Nat → Nat → RenderGraph → RenderGraph
  | 0, _, g => g
  | fuel' + 1, nodeId, g =>
    match g[nodeId]? with
    | none => g
    | some node =>
      if rc.present = false then g
      else if node.isInitialized = false then g
      else if node.lastProcessingTime = rc.currentTime then g
      else
        finishGraph cfg rc frames nodeId
          (pullWith
            (fun s g0 => processIfNecessary cfg rc frames fuel' s g0)
            (pullOrder cfg node)
            (g.set nodeId { node with lastProcessingTime := rc.currentTime }))

/-- Worklist form of `pullInputs` (AudioNode.cpp lines 261-268): process
the upstream nodes in pull order with the given fuel. -/
def pullList (cfg : EngineConfig) (rc : RenderContext) (frames : Nat)
    (fuel : Nat) (ids : List Nat) (g : RenderGraph) : RenderGraph :=
  pullWith (fun s g0 => processIfNecessary cfg rc frames fuel s g0) ids g

/-- The first-invocation path of `processIfNecessary` (AudioNode.cpp lines
226-242): record the current timestamp, pull all inputs, finish the node on
the pulled graph. -/
def processNow (cfg : EngineConfig) (rc : RenderContext) (frames : Nat)
    (fuel : Nat) (nodeId : Nat) (node : RenderNode) (g : RenderGraph) :
    RenderGraph :=
  finishGraph cfg rc frames nodeId
    (pullList cfg rc frames fuel (pullOrder cfg node)
      (g.set nodeId { node with lastProcessingTime := rc.currentTime }))

end Render

namespace Render

theorem processIfNecessary_zero (cfg : EngineConfig) (rc : RenderContext)
    (frames nodeId : Nat) (g : RenderGraph) :
    processIfNecessary cfg rc frames 0 nodeId g = g := by
  rw [processIfNecessary]

theorem processIfNecessary_none (cfg : EngineConfig) (rc : RenderContext)
    (frames fuel nodeId : Nat) (g : RenderGraph)
    (hg : g[nodeId]? = none) :
    processIfNecessary cfg rc frames (fuel + 1) nodeId g = g := by
  rw [processIfNecessary, hg]

theorem processIfNecessary_absent (cfg : EngineConfig) (rc : RenderContext)
    (frames fuel nodeId : Nat) (g : RenderGraph)
    (hp : rc.present = false) :
    processIfNecessary cfg rc frames (fuel + 1) nodeId g = g := by
  rw [processIfNecessary]
  split
  · rfl
  · simp [hp]

theorem processIfNecessary_noop (cfg : EngineConfig) (rc : RenderContext)
    (frames fuel nodeId : Nat) (g : RenderGraph) (node : RenderNode)
    (hg : g[nodeId]? = some node)
    (ht : node.lastProcessingTime = rc.currentTime) :
    processIfNecessary cfg rc frames fuel nodeId g = g := by
  cases fuel with
  | zero => rw [processIfNecessary]
  | succ f =>
    rw [processIfNecessary, hg]
    simp [ht]

theorem processIfNecessary_main (cfg : EngineConfig) (rc : RenderContext)
    (frames fuel nodeId : Nat) (g : RenderGraph) (node : RenderNode)
    (hg : g[nodeId]? = some node) (hp : rc.present = true)
    (hi : node.isInitialized = true)
    (ht : ¬node.lastProcessingTime = rc.currentTime) :
    processIfNecessary cfg rc frames (fuel + 1) nodeId g
      = processNow cfg rc frames fuel nodeId node g := by
  rw [processIfNecessary, hg]
  simp [hp, hi, ht, processNow, pullList]

theorem pullList_nil (cfg : EngineConfig) (rc : RenderContext)
    (frames fuel : Nat) (g : RenderGraph) :
    pullList cfg rc frames fuel [] g = g := rfl

theorem pullList_cons (cfg : EngineConfig) (rc : RenderContext)
    (frames fuel s : Nat) (rest : List Nat) (g : RenderGraph) :
    pullList cfg rc frames fuel (s :: rest) g
      = pullList cfg rc frames fuel rest
          (processIfNecessary cfg rc frames fuel s g) := rfl

theorem finishNode_lastProcessingTime (cfg : EngineConfig)
    (rc : RenderContext) (frames : Nat) (g2 : RenderGraph)
    (m : RenderNode) :
    (finishNode cfg rc frames g2 m).lastProcessingTime
      = m.lastProcessingTime := by
  unfold finishNode
  dsimp only
  split_ifs <;> rfl

theorem finishNode_processCount_le (cfg : EngineConfig)
    (rc : RenderContext) (frames : Nat) (g2 : RenderGraph)
    (m : RenderNode) :
    (finishNode cfg rc frames g2 m).processCount ≤ m.processCount + 1 := by
  unfold finishNode
  dsimp only
  split_ifs <;>
    simp [AudioNode.silenceOutputs, AudioNode.unsilenceOutputs]

end Render

namespace Render

/-- How one node of the graph may evolve during a single render quantum at
timestamp `ct`: either untouched, or freshly processed this quantum — its
stored timestamp moved from a different value to `ct` and its processing
step ran at most once. -/
def nodeEvolves (ct : ℚ) (a b : RenderNode) : Prop :=
  b = a ∨
    (b.lastProcessingTime = ct ∧ ¬a.lastProcessingTime = ct ∧
      b.processCount ≤ a.processCount + 1)

/-- Pointwise evolution of an entire graph during one quantum. -/
def quantumStep (ct : ℚ) (g g' : RenderGraph) : Prop :=
  List.Forall₂ (nodeEvolves ct) g g'

theorem nodeEvolves_refl (ct : ℚ) (a : RenderNode) : nodeEvolves ct a a :=
  Or.inl rfl

theorem nodeEvolves_trans {ct : ℚ} {a b c : RenderNode}
    (hab : nodeEvolves ct a b) (hbc : nodeEvolves ct b c) :
    nodeEvolves ct a c := by
  rcases hab with rfl | ⟨h1, h2, h3⟩
  · exact hbc
  · rcases hbc with rfl | ⟨k1, k2, k3⟩
    · exact Or.inr ⟨h1, h2, h3⟩
    · exact absurd h1 k2

theorem quantumStep_refl (ct : ℚ) (g : RenderGraph) : quantumStep ct g g :=
  List.forall₂_same.2 fun x _ => nodeEvolves_refl ct x

theorem quantumStep_trans {ct : ℚ} {g g' g'' : RenderGraph}
    (h1 : quantumStep ct g g') (h2 : quantumStep ct g' g'') :
    quantumStep ct g g'' := by
  induction h1 generalizing g'' with
  | nil =>
    cases h2
    exact List.Forall₂.nil
  | cons hab htail ih =>
    cases h2 with
    | cons hbc htail2 => exact List.Forall₂.cons (nodeEvolves_trans hab hbc) (ih htail2)

theorem forall₂_getElem? {α β : Type} {R : α → β → Prop}
    {l₁ : List α} {l₂ : List β} (h : List.Forall₂ R l₁ l₂) :
    ∀ (j : Nat) (a : α), l₁[j]? = some a →
      ∃ b, l₂[j]? = some b ∧ R a b := by
  induction h with
  | nil => intro j a ha; simp at ha
  | cons hab htail ih =>
    intro j a ha
    cases j with
    | zero =>
      simp only [List.getElem?_cons_zero, Option.some.injEq] at ha
      subst ha
      refine ⟨_, ?_, hab⟩
      simp
    | succ j' =>
      simp only [List.getElem?_cons_succ] at ha ⊢
      exact ih j' a ha

theorem forall₂_set {α : Type} {R : α → α → Prop}
    (hrefl : ∀ a, R a a) :
    ∀ {l : List α} (i : Nat) {x new : α}, l[i]? = some x → R x new →
      List.Forall₂ R l (l.set i new) := by
  intro l
  induction l with
  | nil => intro i x new h; simp at h
  | cons hd tl ih =>
    intro i x new h hR
    cases i with
    | zero =>
      simp only [List.getElem?_cons_zero, Option.some.injEq] at h
      subst h
      exact List.Forall₂.cons hR (List.forall₂_same.2 fun a _ => hrefl a)
    | succ i' =>
      simp only [List.getElem?_cons_succ] at h
      exact List.Forall₂.cons (hrefl hd) (ih i' h hR)

theorem forall₂_set_after {α : Type} {R : α → α → Prop} :
    ∀ {l l' : List α}, List.Forall₂ R l l' →
      ∀ (i : Nat) {x new : α}, l[i]? = some x → R x new →
        List.Forall₂ R l (l'.set i new) := by
  intro l l' h
  induction h with
  | nil => intro i x new hx; simp at hx
  | cons hab htail ih =>
    intro i x new hx hR
    cases i with
    | zero =>
      simp only [List.getElem?_cons_zero, Option.some.injEq] at hx
      subst hx
      exact List.Forall₂.cons hR htail
    | succ i' =>
      simp only [List.getElem?_cons_succ] at hx
      exact List.Forall₂.cons hab (ih i' hx hR)

theorem quantumStep_frozen {ct : ℚ} {g g' : RenderGraph}
    (h : quantumStep ct g g') {j : Nat} {node : RenderNode}
    (hj : g[j]? = some node) (ht : node.lastProcessingTime = ct) :
    g'[j]? = some node := by
  obtain ⟨node', hj', hR⟩ := forall₂_getElem? h j node hj
  rcases hR with rfl | ⟨_, h2, _⟩
  · exact hj'
  · exact absurd ht h2

end Render

namespace Render

theorem getElem?_some_lt {α : Type} {l : List α} {i : Nat} {a : α}
    (h : l[i]? = some a) : i < l.length := by
  by_contra hcon
  rw [List.getElem?_eq_none (Nat.le_of_not_lt hcon)] at h
  cases h

theorem processIfNecessary_uninit (cfg : EngineConfig) (rc : RenderContext)
    (frames fuel nodeId : Nat) (g : RenderGraph) (node : RenderNode)
    (hg : g[nodeId]? = some node) (hi : node.isInitialized = false) :
    processIfNecessary cfg rc frames (fuel + 1) nodeId g = g := by
  rw [processIfNecessary, hg]
  simp [hi]

theorem quantumStep_pullList_of (cfg : EngineConfig) (rc : RenderContext)
    (frames fuel : Nat)
    (hP : ∀ nodeId g, quantumStep rc.currentTime g
      (processIfNecessary cfg rc frames fuel nodeId g)) :
    ∀ ids g, quantumStep rc.currentTime g
      (pullList cfg rc frames fuel ids g) := by
  intro ids
  induction ids with
  | nil =>
    intro g
    rw [pullList_nil]
    exact quantumStep_refl _ _
  | cons s rest ih =>
    intro g
    rw [pullList_cons]
    exact quantumStep_trans (hP s g) (ih _)

theorem quantumStep_processNow (cfg : EngineConfig) (rc : RenderContext)
    (frames fuel nodeId : Nat) (node : RenderNode) (g : RenderGraph)
    (hg : g[nodeId]? = some node)
    (ht : ¬node.lastProcessingTime = rc.currentTime)
    (hQ : ∀ ids g0, quantumStep rc.currentTime g0
      (pullList cfg rc frames fuel ids g0)) :
    quantumStep rc.currentTime g
      (processNow cfg rc frames fuel nodeId node g) := by
  rw [processNow]
  unfold finishGraph
  have h1 : quantumStep rc.currentTime g
      (g.set nodeId { node with lastProcessingTime := rc.currentTime }) :=
    forall₂_set (nodeEvolves_refl rc.currentTime) nodeId hg
      (Or.inr ⟨rfl, ht, Nat.le_succ _⟩)
  have h2 := hQ (pullOrder cfg node)
    (g.set nodeId { node with lastProcessingTime := rc.currentTime })
  have h12 := quantumStep_trans h1 h2
  cases hg2 : (pullList cfg rc frames fuel (pullOrder cfg node)
      (g.set nodeId
        { node with lastProcessingTime := rc.currentTime }))[nodeId]? with
  | none =>
    simp only [hg2]
    exact h12
  | some node2 =>
    simp only [hg2]
    have hlt : nodeId < g.length := getElem?_some_lt hg
    have hg1 : (g.set nodeId
        { node with lastProcessingTime := rc.currentTime })[nodeId]?
        = some { node with lastProcessingTime := rc.currentTime } :=
      List.getElem?_set_self hlt
    have hfz := quantumStep_frozen h2 hg1 rfl
    have hnode2 : node2 = { node with lastProcessingTime := rc.currentTime } := by
      rw [hg2] at hfz
      exact Option.some.inj hfz
    refine forall₂_set_after h12 nodeId hg (Or.inr ⟨?_, ht, ?_⟩)
    · rw [finishNode_lastProcessingTime, hnode2]
    · have hle := finishNode_processCount_le cfg rc frames
        (pullList cfg rc frames fuel (pullOrder cfg node)
          (g.set nodeId { node with lastProcessingTime := rc.currentTime }))
        node2
      refine le_trans hle ?_
      rw [hnode2]

theorem quantumStep_processIfNecessary (cfg : EngineConfig)
    (rc : RenderContext) (frames : Nat) :
    ∀ fuel nodeId g, quantumStep rc.currentTime g
      (processIfNecessary cfg rc frames fuel nodeId g) := by
  intro fuel
  induction fuel with
  | zero =>
    intro nodeId g
    rw [processIfNecessary_zero]
    exact quantumStep_refl _ _
  | succ f ih =>
    intro nodeId g
    have hQ := quantumStep_pullList_of cfg rc frames f ih
    cases hg : g[nodeId]? with
    | none =>
      rw [processIfNecessary_none _ _ _ _ _ _ hg]
      exact quantumStep_refl _ _
    | some node =>
      by_cases hp : rc.present = false
      · rw [processIfNecessary_absent _ _ _ _ _ _ hp]
        exact quantumStep_refl _ _
      · by_cases hi : node.isInitialized = false
        · rw [processIfNecessary_uninit _ _ _ _ _ _ _ hg hi]
          exact quantumStep_refl _ _
        · by_cases ht : node.lastProcessingTime = rc.currentTime
          · rw [processIfNecessary_noop _ _ _ _ _ _ _ hg ht]
            exact quantumStep_refl _ _
          · have hp' : rc.present = true := by
              revert hp
              cases rc.present <;> simp
            have hi' : node.isInitialized = true := by
              revert hi
              cases node.isInitialized <;> simp
            rw [processIfNecessary_main _ _ _ _ _ _ _ hg hp' hi' ht]
            exact quantumStep_processNow cfg rc frames f nodeId node g hg ht hQ

theorem quantumStep_pullList (cfg : EngineConfig) (rc : RenderContext)
    (frames fuel : Nat) (ids : List Nat) (g : RenderGraph) :
    quantumStep rc.currentTime g (pullList cfg rc frames fuel ids g) :=
  quantumStep_pullList_of cfg rc frames fuel
    (quantumStep_processIfNecessary cfg rc frames fuel) ids g

theorem processNow_result_processed (cfg : EngineConfig)
    (rc : RenderContext) (frames fuel nodeId : Nat) (node : RenderNode)
    (g : RenderGraph) (hg : g[nodeId]? = some node) :
    (processNow cfg rc frames fuel nodeId node g)[nodeId]? = none ∨
    ∃ node', (processNow cfg rc frames fuel nodeId node g)[nodeId]?
        = some node' ∧
      node'.lastProcessingTime = rc.currentTime := by
  rw [processNow]
  unfold finishGraph
  have hlt : nodeId < g.length := getElem?_some_lt hg
  have hg1 : (g.set nodeId
      { node with lastProcessingTime := rc.currentTime })[nodeId]?
      = some { node with lastProcessingTime := rc.currentTime } :=
    List.getElem?_set_self hlt
  have hfz := quantumStep_frozen
    (quantumStep_pullList cfg rc frames fuel (pullOrder cfg node)
      (g.set nodeId { node with lastProcessingTime := rc.currentTime }))
    hg1 rfl
  cases hg2 : (pullList cfg rc frames fuel (pullOrder cfg node)
      (g.set nodeId
        { node with lastProcessingTime := rc.currentTime }))[nodeId]? with
  | none =>
    left
    simp only [hg2]
  | some node2 =>
    simp only [hg2]
    right
    have hnode2 : node2 = { node with lastProcessingTime := rc.currentTime } := by
      rw [hg2] at hfz
      exact Option.some.inj hfz
    refine ⟨finishNode cfg rc frames
      (pullList cfg rc frames fuel (pullOrder cfg node)
        (g.set nodeId { node with lastProcessingTime := rc.currentTime }))
      node2, ?_, ?_⟩
    · exact List.getElem?_set_self (getElem?_some_lt hg2)
    · rw [finishNode_lastProcessingTime, hnode2]

theorem processIfNecessary_idem (cfg : EngineConfig) (rc : RenderContext)
    (frames fuel nodeId : Nat) (g : RenderGraph) :
    processIfNecessary cfg rc frames fuel nodeId
        (processIfNecessary cfg rc frames fuel nodeId g)
      = processIfNecessary cfg rc frames fuel nodeId g := by
  cases fuel with
  | zero => rw [processIfNecessary_zero, processIfNecessary_zero]
  | succ f =>
    cases hg : g[nodeId]? with
    | none => rw [processIfNecessary_none _ _ _ _ _ _ hg,
        processIfNecessary_none _ _ _ _ _ _ hg]
    | some node =>
      by_cases hp : rc.present = false
      · rw [processIfNecessary_absent _ _ _ _ _ _ hp,
          processIfNecessary_absent _ _ _ _ _ _ hp]
      · by_cases hi : node.isInitialized = false
        · rw [processIfNecessary_uninit _ _ _ _ _ _ _ hg hi,
            processIfNecessary_uninit _ _ _ _ _ _ _ hg hi]
        · by_cases ht : node.lastProcessingTime = rc.currentTime
          · rw [processIfNecessary_noop _ _ _ _ _ _ _ hg ht,
              processIfNecessary_noop _ _ _ _ _ _ _ hg ht]
          · have hp' : rc.present = true := by
              revert hp
              cases rc.present <;> simp
            have hi' : node.isInitialized = true := by
              revert hi
              cases node.isInitialized <;> simp
            rw [processIfNecessary_main _ _ _ _ _ _ _ hg hp' hi' ht]
            rcases processNow_result_processed cfg rc frames f nodeId node g hg
              with hnone | ⟨node', hsome, htp'⟩
            · exact processIfNecessary_none _ _ _ _ _ _ hnone
            · exact processIfNecessary_noop _ _ _ _ _ _ _ hsome htp'

end Render

namespace Render

/-- Number of nodes that have not yet produced this quantum's output (their
stored timestamp differs from the current one). -/
def pendingCount (ct : ℚ) (g : RenderGraph) : Nat :=
  g.countP (fun node => decide (¬node.lastProcessingTime = ct))

theorem pendingCount_le_of_step {ct : ℚ} : ∀ {g g' : RenderGraph},
    quantumStep ct g g' → pendingCount ct g' ≤ pendingCount ct g := by
  intro g g' h
  induction h with
  | nil => exact Nat.le_refl _
  | cons hab htail ih =>
    rename_i a b l₁ l₂
    simp only [pendingCount, List.countP_cons] at ih ⊢
    rcases hab with rfl | ⟨h1, h2, _⟩
    · omega
    · have hb : (decide (¬b.lastProcessingTime = ct)) = false := by simp [h1]
      have ha : (decide (¬a.lastProcessingTime = ct)) = true := by simp [h2]
      rw [hb, ha]
      simp only [Bool.false_eq_true, if_false, if_true]
      omega

theorem pendingCount_set_mark {ct : ℚ} :
    ∀ (g : RenderGraph) (i : Nat) (node new : RenderNode),
      g[i]? = some node → ¬node.lastProcessingTime = ct →
      new.lastProcessingTime = ct →
      pendingCount ct (g.set i new) + 1 = pendingCount ct g := by
  intro g
  induction g with
  | nil => intro i node new h _ _; simp at h
  | cons hd tl ih =>
    intro i node new h hnode hnew
    cases i with
    | zero =>
      simp only [List.getElem?_cons_zero, Option.some.injEq] at h
      subst h
      simp [pendingCount, List.countP_cons, hnode, hnew]
    | succ i' =>
      simp only [List.getElem?_cons_succ] at h
      rw [List.set_cons_succ]
      simp only [pendingCount, List.countP_cons]
      have hrec := ih i' node new h hnode hnew
      simp only [pendingCount] at hrec
      omega

/-- C2's termination content: past the number of still-pending nodes, the
fuel bound is irrelevant — the timestamp guard, updated before the
recursive pull, cuts every cycle, so the recursion depth is bounded by the
number of unprocessed nodes even in feedback topologies. -/
theorem processIfNecessary_fuel_indep (cfg : EngineConfig)
    (rc : RenderContext) (frames : Nat) : ∀ fuel : Nat,
    (∀ fuel₂ nodeId g, pendingCount rc.currentTime g < fuel →
      pendingCount rc.currentTime g < fuel₂ →
      processIfNecessary cfg rc frames fuel nodeId g
        = processIfNecessary cfg rc frames fuel₂ nodeId g) ∧
    (∀ fuel₂ ids g, pendingCount rc.currentTime g < fuel →
      pendingCount rc.currentTime g < fuel₂ →
      pullList cfg rc frames fuel ids g
        = pullList cfg rc frames fuel₂ ids g) := by
  intro fuel
  induction fuel using Nat.strong_induction_on with
  | _ fuel ih =>
    have hP : ∀ fuel₂ nodeId g, pendingCount rc.currentTime g < fuel →
        pendingCount rc.currentTime g < fuel₂ →
        processIfNecessary cfg rc frames fuel nodeId g
          = processIfNecessary cfg rc frames fuel₂ nodeId g := by
      intro fuel₂ nodeId g h1 h2
      cases fuel with
      | zero => omega
      | succ f =>
        cases fuel₂ with
        | zero => omega
        | succ f₂ =>
          cases hg : g[nodeId]? with
          | none => rw [processIfNecessary_none _ _ _ _ _ _ hg,
              processIfNecessary_none _ _ _ _ _ _ hg]
          | some node =>
            by_cases hp : rc.present = false
            · rw [processIfNecessary_absent _ _ _ _ _ _ hp,
                processIfNecessary_absent _ _ _ _ _ _ hp]
            · by_cases hi : node.isInitialized = false
              · rw [processIfNecessary_uninit _ _ _ _ _ _ _ hg hi,
                  processIfNecessary_uninit _ _ _ _ _ _ _ hg hi]
              · by_cases ht : node.lastProcessingTime = rc.currentTime
                · rw [processIfNecessary_noop _ _ _ _ _ _ _ hg ht,
                    processIfNecessary_noop _ _ _ _ _ _ _ hg ht]
                · have hp' : rc.present = true := by
                    revert hp
                    cases rc.present <;> simp
                  have hi' : node.isInitialized = true := by
                    revert hi
                    cases node.isInitialized <;> simp
                  rw [processIfNecessary_main _ _ _ _ _ _ _ hg hp' hi' ht,
                    processIfNecessary_main _ _ _ _ _ _ _ hg hp' hi' ht]
                  rw [processNow, processNow]
                  have hg1count : pendingCount rc.currentTime
                      (g.set nodeId
                        { node with lastProcessingTime := rc.currentTime }) + 1
                      = pendingCount rc.currentTime g :=
                    pendingCount_set_mark g nodeId node _ hg ht rfl
                  have hQf := (ih f (Nat.lt_succ_self f)).2
                  have hpull : pullList cfg rc frames f (pullOrder cfg node)
                        (g.set nodeId
                          { node with lastProcessingTime := rc.currentTime })
                      = pullList cfg rc frames f₂ (pullOrder cfg node)
                        (g.set nodeId
                          { node with lastProcessingTime := rc.currentTime }) :=
                    hQf f₂ _ _ (by omega) (by omega)
                  rw [hpull]
    have hQ : ∀ fuel₂ ids g, pendingCount rc.currentTime g < fuel →
        pendingCount rc.currentTime g < fuel₂ →
        pullList cfg rc frames fuel ids g
          = pullList cfg rc frames fuel₂ ids g := by
      intro fuel₂ ids
      induction ids with
      | nil => intro g _ _; rw [pullList_nil, pullList_nil]
      | cons s rest ihids =>
        intro g h1 h2
        rw [pullList_cons, pullList_cons]
        rw [← hP fuel₂ s g h1 h2]
        apply ihids
        · exact lt_of_le_of_lt
            (pendingCount_le_of_step
              (quantumStep_processIfNecessary cfg rc frames fuel s g)) h1
        · exact lt_of_le_of_lt
            (pendingCount_le_of_step
              (quantumStep_processIfNecessary cfg rc frames fuel s g)) h2
    exact ⟨hP, hQ⟩

end Render

namespace Render

/-- C2: per render-context timestamp a node processes at most once — a
second (and any later) call to `processIfNecessary` with the same timestamp
mutates nothing; a call on an already-processed node is a no-op; over any
call, every node's processing step runs at most once and already-processed
nodes are untouched (also in cyclic topologies); and past the number of
pending nodes the fuel bound is irrelevant, because the timestamp is
recorded before the recursive pull, so feedback loops cannot recurse
unboundedly. -/
theorem processIfNecessary_once_per_timestamp (cfg : EngineConfig)
    (rc : RenderContext) (frames fuel nodeId : Nat) (g : RenderGraph) :
    processIfNecessary cfg rc frames fuel nodeId
        (processIfNecessary cfg rc frames fuel nodeId g)
      = processIfNecessary cfg rc frames fuel nodeId g ∧
    (∀ node, g[nodeId]? = some node →
      node.lastProcessingTime = rc.currentTime →
      processIfNecessary cfg rc frames fuel nodeId g = g) ∧
    (∀ (j : Nat) (node node' : RenderNode), g[j]? = some node →
      (processIfNecessary cfg rc frames fuel nodeId g)[j]? = some node' →
      node'.processCount ≤ node.processCount + 1 ∧
      (node.lastProcessingTime = rc.currentTime → node' = node)) ∧
    (∀ fuel₂, pendingCount rc.currentTime g < fuel →
      pendingCount rc.currentTime g < fuel₂ →
      processIfNecessary cfg rc frames fuel nodeId g
        = processIfNecessary cfg rc frames fuel₂ nodeId g) := by
  refine ⟨processIfNecessary_idem cfg rc frames fuel nodeId g, ?_, ?_, ?_⟩
  · intro node hg ht
    exact processIfNecessary_noop cfg rc frames fuel nodeId g node hg ht
  · intro j node node' hj hj'
    obtain ⟨b, hb, hR⟩ := forall₂_getElem?
      (quantumStep_processIfNecessary cfg rc frames fuel nodeId g) j node hj
    have hbe : b = node' := by
      rw [hb] at hj'
      exact Option.some.inj hj'
    subst hbe
    rcases hR with rfl | ⟨h1, h2, h3⟩
    · exact ⟨Nat.le_succ _, fun _ => rfl⟩
    · exact ⟨h3, fun htp => absurd htp h2⟩
  · intro fuel₂ h1 h2
    exact (processIfNecessary_fuel_indep cfg rc frames fuel).1 fuel₂ nodeId g
      h1 h2

/-- A 1-input/1-output engine configuration for the concrete examples. -/
def cfgW : EngineConfig := ⟨1, 1⟩

/-- A concrete render context: present, `currentTime() = 1`,
`currentSampleFrame() = 0`. -/
def rcW : RenderContext := ⟨true, 1, 0⟩

/-- Node 0 of a two-node feedback loop: fed by node 1's output 0. -/
def nodeW0 : RenderNode :=
  { isInitialized := true
    sampleRate := 1
    lastProcessingTime := -1
    lastNonSilentTime := 0
    latencyTime := 0
    tailTime := 0
    inputs := [some ⟨[(1, 0)]⟩]
    outputs := [some ⟨false⟩]
    processCount := 0 }

/-- Node 1 of the feedback loop: fed by node 0's output 0. -/
def nodeW1 : RenderNode :=
  { nodeW0 with inputs := [some ⟨[(0, 0)]⟩] }

/-- The two-node feedback (cyclic) graph. -/
def gW : RenderGraph := [nodeW0, nodeW1]

/-- A single-node graph whose node has already processed this quantum
(`lastProcessingTime = currentTime()`). -/
def nodeDone : RenderNode := { nodeW0 with lastProcessingTime := 1 }

/-- The one-node already-processed graph. -/
def gDone : RenderGraph := [nodeDone]

/-- Witness for C2: idempotence on the concrete two-node feedback graph
`gW`, and the memoized no-op, per-node count bound and fuel-independence on
the already-processed graph `gDone`. -/
theorem processIfNecessary_once_per_timestamp_witness :
    (processIfNecessary cfgW rcW 4 3 0
        (processIfNecessary cfgW rcW 4 3 0 gW)
      = processIfNecessary cfgW rcW 4 3 0 gW) ∧
    processIfNecessary cfgW rcW 4 3 0 gDone = gDone ∧
    (nodeDone.processCount ≤ nodeDone.processCount + 1 ∧
      (nodeDone.lastProcessingTime = rcW.currentTime → nodeDone = nodeDone)) ∧
    processIfNecessary cfgW rcW 4 3 0 gDone
      = processIfNecessary cfgW rcW 4 5 0 gDone :=
  ⟨(processIfNecessary_once_per_timestamp cfgW rcW 4 3 0 gW).1,
    (processIfNecessary_once_per_timestamp cfgW rcW 4 3 0 gDone).2.1
      nodeDone rfl (by decide),
    (processIfNecessary_once_per_timestamp cfgW rcW 4 3 0 gDone).2.2.1
      0 nodeDone nodeDone rfl (by decide),
    (processIfNecessary_once_per_timestamp cfgW rcW 4 3 0 gDone).2.2.2
      5 (by decide) (by decide)⟩

end Render

namespace Render

theorem setSilentSlots_getElem (maxO : Nat) (flag : Bool) :
    ∀ (l : List (Option RenderOutput)) (start j : Nat),
      (setSilentSlots maxO flag start l)[j]?
        = if start + j < maxO then
            (l[j]?).map (Option.map (fun out => { out with silent := flag }))
          else l[j]? := by
  intro l
  induction l with
  | nil =>
    intro start j
    simp [setSilentSlots]
  | cons slot rest ih =>
    intro start j
    cases j with
    | zero => by_cases h : start < maxO <;> simp [setSilentSlots, h]
    | succ j' =>
      simp only [setSilentSlots, List.getElem?_cons_succ]
      rw [ih (start + 1) j',
        show start + 1 + j' = start + (j' + 1) from by omega]

theorem silenceOutputs_getElem (cfg : EngineConfig) (n : RenderNode)
    (j : Nat) :
    (AudioNode.silenceOutputs cfg n).outputs[j]?
      = if j < cfg.maxOutputs then
          (n.outputs[j]?).map
            (Option.map (fun out => { out with silent := true }))
        else n.outputs[j]? := by
  unfold AudioNode.silenceOutputs
  simpa using setSilentSlots_getElem cfg.maxOutputs true n.outputs 0 j

theorem unsilenceOutputs_getElem (cfg : EngineConfig) (n : RenderNode)
    (j : Nat) :
    (AudioNode.unsilenceOutputs cfg n).outputs[j]?
      = if j < cfg.maxOutputs then
          (n.outputs[j]?).map
            (Option.map (fun out => { out with silent := false }))
        else n.outputs[j]? := by
  unfold AudioNode.unsilenceOutputs
  simpa using setSilentSlots_getElem cfg.maxOutputs false n.outputs 0 j

theorem finishNode_eq_silence (cfg : EngineConfig) (rc : RenderContext)
    (frames : Nat) (g2 : RenderGraph) (m : RenderNode)
    (hsi : AudioNode.inputsAreSilent cfg g2 m = true)
    (hpred : m.lastNonSilentTime + m.latencyTime + m.tailTime
      < rc.currentTime) :
    finishNode cfg rc frames g2 m = AudioNode.silenceOutputs cfg m := by
  simp [finishNode, hsi, AudioNode.propagatesSilence, hpred]

theorem finishNode_eq_process_tail (cfg : EngineConfig)
    (rc : RenderContext) (frames : Nat) (g2 : RenderGraph) (m : RenderNode)
    (hsi : AudioNode.inputsAreSilent cfg g2 m = true)
    (hpred : ¬m.lastNonSilentTime + m.latencyTime + m.tailTime
      < rc.currentTime) :
    finishNode cfg rc frames g2 m
      = AudioNode.unsilenceOutputs cfg
          { m with processCount := m.processCount + 1 } := by
  simp [finishNode, hsi, AudioNode.propagatesSilence, hpred]

theorem finishNode_eq_process_live (cfg : EngineConfig)
    (rc : RenderContext) (frames : Nat) (g2 : RenderGraph) (m : RenderNode)
    (hsi : AudioNode.inputsAreSilent cfg g2 m = false) :
    finishNode cfg rc frames g2 m
      = AudioNode.unsilenceOutputs cfg
          { m with
            lastNonSilentTime :=
              ((rc.currentSampleFrame + frames : Nat) : ℚ) / m.sampleRate
            processCount := m.processCount + 1 } := by
  simp [finishNode, hsi]

end Render

namespace Render

/-- C3: on a node's first `processIfNecessary` invocation of a quantum the
node at `nodeId` is finished as follows, where `silent` is whether all its
connected inputs are silent after the pull: outputs are silence-substituted
— every registered output's bus zeroed (silent flag set) with the
processing step skipped — precisely when `silent` holds together with
`lastNonSilentTime + latencyTime + tailTime < currentTime` over the OLD
`lastNonSilentTime`; otherwise the processing step runs exactly once and
every registered output is marked not-silent; and `lastNonSilentTime` is
set to the end-of-quantum sample time exactly when the inputs are not
silent, regardless of the branch taken. -/
theorem processIfNecessary_silence_substitution (cfg : EngineConfig)
    (rc : RenderContext) (frames fuel nodeId : Nat) (g : RenderGraph)
    (node : RenderNode)
    (hg : g[nodeId]? = some node) (hp : rc.present = true)
    (hi : node.isInitialized = true)
    (ht : ¬node.lastProcessingTime = rc.currentTime) :
    ∃ node',
      (processIfNecessary cfg rc frames (fuel + 1) nodeId g)[nodeId]?
        = some node' ∧
      ∀ silent, silent = AudioNode.inputsAreSilent cfg
          (pullList cfg rc frames fuel (pullOrder cfg node)
            (g.set nodeId { node with lastProcessingTime := rc.currentTime }))
          { node with lastProcessingTime := rc.currentTime } →
        ((silent = true ∧
            node.lastNonSilentTime + node.latencyTime + node.tailTime
              < rc.currentTime) →
          node'.processCount = node.processCount ∧
          ∀ j, j < cfg.maxOutputs →
            node'.outputs[j]? = (node.outputs[j]?).map
              (Option.map (fun out => { out with silent := true }))) ∧
        (¬(silent = true ∧
            node.lastNonSilentTime + node.latencyTime + node.tailTime
              < rc.currentTime) →
          node'.processCount = node.processCount + 1 ∧
          ∀ j, j < cfg.maxOutputs →
            node'.outputs[j]? = (node.outputs[j]?).map
              (Option.map (fun out => { out with silent := false }))) ∧
        (silent = false →
          node'.lastNonSilentTime
            = ((rc.currentSampleFrame + frames : Nat) : ℚ) / node.sampleRate) ∧
        (silent = true →
          node'.lastNonSilentTime = node.lastNonSilentTime) := by
  rw [processIfNecessary_main cfg rc frames fuel nodeId g node hg hp hi ht]
  rw [processNow]
  unfold finishGraph
  have hlt : nodeId < g.length := getElem?_some_lt hg
  have hg1 : (g.set nodeId
      { node with lastProcessingTime := rc.currentTime })[nodeId]?
      = some { node with lastProcessingTime := rc.currentTime } :=
    List.getElem?_set_self hlt
  have hfz := quantumStep_frozen
    (quantumStep_pullList cfg rc frames fuel (pullOrder cfg node)
      (g.set nodeId { node with lastProcessingTime := rc.currentTime }))
    hg1 rfl
  cases hg2 : (pullList cfg rc frames fuel (pullOrder cfg node)
      (g.set nodeId
        { node with lastProcessingTime := rc.currentTime }))[nodeId]? with
  | none =>
    rw [hg2] at hfz
    cases hfz
  | some node2 =>
    have hnode2 : node2 = { node with lastProcessingTime := rc.currentTime } := by
      rw [hg2] at hfz
      exact Option.some.inj hfz
    simp only [hg2]
    subst hnode2
    refine ⟨_, List.getElem?_set_self (getElem?_some_lt hg2), ?_⟩
    intro silent hsilent
    by_cases hsi : AudioNode.inputsAreSilent cfg
        (pullList cfg rc frames fuel (pullOrder cfg node)
          (g.set nodeId { node with lastProcessingTime := rc.currentTime }))
        { node with lastProcessingTime := rc.currentTime } = true
    · by_cases hpred : node.lastNonSilentTime + node.latencyTime
          + node.tailTime < rc.currentTime
      · rw [finishNode_eq_silence _ _ _ _ _ hsi hpred]
        refine ⟨fun _ => ⟨rfl, ?_⟩, fun hcon => absurd ⟨by rw [hsilent]; exact hsi, hpred⟩ hcon,
          fun hfalse => absurd (hsilent ▸ hsi) (by rw [hfalse]; simp),
          fun _ => rfl⟩
        intro j hj
        rw [silenceOutputs_getElem, if_pos hj]
      · rw [finishNode_eq_process_tail _ _ _ _ _ hsi hpred]
        refine ⟨fun hcon => absurd hcon.2 hpred, fun _ => ⟨rfl, ?_⟩,
          fun hfalse => absurd (hsilent ▸ hsi) (by rw [hfalse]; simp),
          fun _ => rfl⟩
        intro j hj
        rw [unsilenceOutputs_getElem, if_pos hj]
    · have hsi' : AudioNode.inputsAreSilent cfg
          (pullList cfg rc frames fuel (pullOrder cfg node)
            (g.set nodeId { node with lastProcessingTime := rc.currentTime }))
          { node with lastProcessingTime := rc.currentTime } = false := by
        revert hsi
        cases AudioNode.inputsAreSilent cfg
          (pullList cfg rc frames fuel (pullOrder cfg node)
            (g.set nodeId { node with lastProcessingTime := rc.currentTime }))
          { node with lastProcessingTime := rc.currentTime } <;> simp
      rw [finishNode_eq_process_live _ _ _ _ _ hsi']
      have hsfalse : silent = false := hsilent ▸ hsi'
      refine ⟨fun hcon => absurd hcon.1 (by rw [hsfalse]; simp),
        fun _ => ⟨rfl, ?_⟩, fun _ => rfl,
        fun htrue => absurd (hsfalse ▸ htrue) (by simp)⟩
      intro j hj
      rw [unsilenceOutputs_getElem, if_pos hj]

end Render

namespace Render

/-- Witness for C3: the silence-substitution characterisation applied to
node 0 of the concrete feedback graph `gW` on its first invocation of the
quantum at `currentTime() = 1`. -/
theorem processIfNecessary_silence_substitution_witness :
    ∃ node',
      (processIfNecessary cfgW rcW 4 (2 + 1) 0 gW)[0]? = some node' ∧
      ∀ silent, silent = AudioNode.inputsAreSilent cfgW
          (pullList cfgW rcW 4 2 (pullOrder cfgW nodeW0)
            (gW.set 0 { nodeW0 with lastProcessingTime := rcW.currentTime }))
          { nodeW0 with lastProcessingTime := rcW.currentTime } →
        ((silent = true ∧
            nodeW0.lastNonSilentTime + nodeW0.latencyTime + nodeW0.tailTime
              < rcW.currentTime) →
          node'.processCount = nodeW0.processCount ∧
          ∀ j, j < cfgW.maxOutputs →
            node'.outputs[j]? = (nodeW0.outputs[j]?).map
              (Option.map (fun out => { out with silent := true }))) ∧
        (¬(silent = true ∧
            nodeW0.lastNonSilentTime + nodeW0.latencyTime + nodeW0.tailTime
              < rcW.currentTime) →
          node'.processCount = nodeW0.processCount + 1 ∧
          ∀ j, j < cfgW.maxOutputs →
            node'.outputs[j]? = (nodeW0.outputs[j]?).map
              (Option.map (fun out => { out with silent := false }))) ∧
        (silent = false →
          node'.lastNonSilentTime
            = ((rcW.currentSampleFrame + 4 : Nat) : ℚ) / nodeW0.sampleRate) ∧
        (silent = true →
          node'.lastNonSilentTime = nodeW0.lastNonSilentTime) :=
  processIfNecessary_silence_substitution cfgW rcW 4 2 0 gW nodeW0
    rfl rfl rfl (by decide)

end Render

namespace Render

/-- C10: the port accessors return null for any index at or beyond the
engine-wide bound instead of touching out-of-bounds storage; every source
pulled by `pullInputs` comes from a registered (non-null) input slot below
the bound; and `silenceOutputs`/`unsilenceOutputs` modify only the silent
flag of registered output slots below the bound — absent (`none`) slots
map to themselves and slots at or beyond the bound are untouched, so no
port operation dereferences an unregistered slot. -/
theorem port_accessors_safe (cfg : EngineConfig) (n : RenderNode) (i : Nat) :
    (cfg.maxInputs ≤ i → AudioNode.input cfg n i = none) ∧
    (cfg.maxOutputs ≤ i → AudioNode.output cfg n i = none) ∧
    (∀ src, src ∈ pullOrder cfg n →
      ∃ k inp, k < cfg.maxInputs ∧ AudioNode.input cfg n k = some inp ∧
        src ∈ inp.sources.map (fun p => p.1)) ∧
    (∀ j, (AudioNode.silenceOutputs cfg n).outputs[j]?
      = if j < cfg.maxOutputs then
          (n.outputs[j]?).map
            (Option.map (fun out => { out with silent := true }))
        else n.outputs[j]?) ∧
    (∀ j, (AudioNode.unsilenceOutputs cfg n).outputs[j]?
      = if j < cfg.maxOutputs then
          (n.outputs[j]?).map
            (Option.map (fun out => { out with silent := false }))
        else n.outputs[j]?) := by
  refine ⟨?_, ?_, ?_, ?_, ?_⟩
  · intro h
    unfold AudioNode.input
    rw [if_neg (Nat.not_lt.mpr h)]
  · intro h
    unfold AudioNode.output
    rw [if_neg (Nat.not_lt.mpr h)]
  · intro src hsrc
    unfold pullOrder at hsrc
    rw [List.mem_flatten] at hsrc
    obtain ⟨l, hl, hsl⟩ := hsrc
    rw [List.mem_map] at hl
    obtain ⟨inp, hinp, rfl⟩ := hl
    rw [List.mem_filterMap] at hinp
    obtain ⟨k, hk, hik⟩ := hinp
    exact ⟨k, inp, List.mem_range.mp hk, hik, hsl⟩
  · intro j
    exact silenceOutputs_getElem cfg n j
  · intro j
    exact unsilenceOutputs_getElem cfg n j

/-- Witness for C10: the bound and skip behaviour evaluated on the concrete
node `nodeW0` under the 1-port configuration `cfgW`, at the out-of-range
index 5. -/
theorem port_accessors_safe_witness :
    AudioNode.input cfgW nodeW0 5 = none ∧
    AudioNode.output cfgW nodeW0 5 = none ∧
    (∃ k inp, k < cfgW.maxInputs ∧ AudioNode.input cfgW nodeW0 k = some inp ∧
      1 ∈ inp.sources.map (fun p => p.1)) ∧
    (AudioNode.silenceOutputs cfgW nodeW0).outputs[0]?
      = if 0 < cfgW.maxOutputs then
          (nodeW0.outputs[0]?).map
            (Option.map (fun out => { out with silent := true }))
        else nodeW0.outputs[0]? :=
  ⟨(port_accessors_safe cfgW nodeW0 5).1 (by decide),
    (port_accessors_safe cfgW nodeW0 5).2.1 (by decide),
    (port_accessors_safe cfgW nodeW0 5).2.2.1 1 (by decide),
    (port_accessors_safe cfgW nodeW0 5).2.2.2.1 0⟩

end Render
